import Mathlib

/-!
# Registration of an in-tree vSphere volume as a CNS volume

A shallow embedding of `pkg/vsphere/vsphere_csi.go` and
`cmd/register-cns-volume/main.go`.

Go strings are modelled as lists of Unicode code points (`Str`), i.e. the
strings are taken to be valid UTF-8; every library routine used by the source
(`strings.TrimSpace`, `strings.TrimPrefix`, `strings.Trim`, `strings.Split`,
the regular expression, `url.PathEscape`, the `%q` verb) is modelled rune by
rune after its documented behaviour.  Calls that leave the process
(Kubernetes API, vCenter, the file system, the UUID generator) are answered by
a `World`, and every call made to vCenter is recorded in a trace.
-/

namespace CnsRegistration

/-- A Go string, as the list of its runes. -/
abbrev Str := List Char

/-! ## The `strings` routines used by the path parser -/

/-- Go `unicode.IsSpace`: the Latin-1 space characters are listed one by one,
above Latin-1 the `White_Space` table is consulted. -/
def isSpace (c : Char) : Bool :=
  let n := c.toNat
  if n ≤ 0xFF then
    n == 0x09 || n == 0x0A || n == 0x0B || n == 0x0C || n == 0x0D || n == 0x20
      || n == 0x85 || n == 0xA0
  else
    n == 0x1680 || (0x2000 ≤ n && n ≤ 0x200A) || n == 0x2028 || n == 0x2029
      || n == 0x202F || n == 0x205F || n == 0x3000

/-- Go `strings.TrimLeftFunc`. -/
def TrimLeftFunc (s : Str) (f : Char → Bool) : Str :=
  s.dropWhile f

/-- Go `strings.TrimRightFunc`. -/
def TrimRightFunc (s : Str) (f : Char → Bool) : Str :=
  (s.reverse.dropWhile f).reverse

/-- Go `strings.TrimSpace`: leading and trailing white space removed. -/
def TrimSpace (s : Str) : Str :=
  TrimRightFunc (TrimLeftFunc s isSpace) isSpace

/-- Go `strings.Trim(s, cutset)`: leading and trailing runes of `cutset` removed. -/
def Trim (s : Str) (cutset : Str) : Str :=
  TrimRightFunc (TrimLeftFunc s (fun c => decide (c ∈ cutset))) (fun c => decide (c ∈ cutset))

/-- Go `strings.HasPrefix`. -/
def HasPrefix (s pre : Str) : Bool :=
  pre.isPrefixOf s

/-- Go `strings.TrimPrefix`: `s` without the leading `pre`; `s` itself when
`s` does not start with `pre`. -/
def TrimPrefix (s pre : Str) : Str :=
  if HasPrefix s pre then s.drop pre.length else s

/-- Go `strings.Split(s, sep)` for a separator of one rune: the pieces between
the occurrences of `sep`, one more than there are occurrences. -/
def Split : Str → Char → List Str
  | [], _ => [[]]
  | c :: cs, sep =>
    if c = sep then [] :: Split cs sep
    else
      match Split cs sep with
      | [] => [[c]]
      | piece :: pieces => (c :: piece) :: pieces

/-! ## The regular expression `\[([^\[\]]*)\]` -/

/-- The character class `[^\[\]]`: any rune but the two square brackets. -/
def notBracket (c : Char) : Bool :=
  c != '[' && c != ']'

/-- The match of `\[([^\[\]]*)\]` that starts at the first rune of `s`, if
there is one.  The starred class never consumes a `]`, so the greedy choice is
the only one that can be followed by `]`. -/
def matchAtStart : Str → Option Str
  | [] => none
  | c :: rest =>
    if c = '[' then
      match rest.dropWhile notBracket with
      | [] => none
      | d :: _ =>
        if d = ']' then some ('[' :: (rest.takeWhile notBracket ++ [']'])) else none
    else none

/-- The element 0 of `re.FindAllString(s, -1)`: the leftmost match of the
expression in `s`. -/
def findFirst : Str → Option Str
  | [] => none
  | c :: rest =>
    match matchAtStart (c :: rest) with
    | some tok => some tok
    | none => findFirst rest

/-- Go `re.MatchString`. -/
def MatchString (s : Str) : Bool :=
  (findFirst s).isSome

/-! ## Path parsing (`RegisterCNSDisk`, lines 177-185) -/

/-- The two values the source derives from the volume path. -/
structure ParsedPath where
  datastoreName : Str
  vmdkPath : Str
  deriving DecidableEq, Repr

/-- The last element of `strings.Split(s, "/")`. -/
def lastSegment (s : Str) : Str :=
  (Split s '/').getLastD []

/-- Lines 177-185 of `RegisterCNSDisk`: `none` when the expression does not
match (the source returns an error), else the datastore name and disk path. -/
def parseVolumePath (volumePath : Str) : Option ParsedPath :=
  if !MatchString volumePath then none
  else
    match findFirst volumePath with
    | none => none
    | some datastoreFullPath =>
      let vmdkPath := TrimSpace (TrimPrefix volumePath datastoreFullPath)
      let stripped := Trim (Trim datastoreFullPath ['[']) [']']
      some { datastoreName := lastSegment stripped, vmdkPath := vmdkPath }

/-! ## `url.PathEscape` -/

/-- The UTF-8 encoding of a rune, as byte values. -/
def utf8Bytes (c : Char) : List Nat :=
  let n := c.toNat
  if n < 0x80 then [n]
  else if n < 0x800 then [0xC0 + n / 0x40, 0x80 + n % 0x40]
  else if n < 0x10000 then [0xE0 + n / 0x1000, 0x80 + (n / 0x40) % 0x40, 0x80 + n % 0x40]
  else [0xF0 + n / 0x40000, 0x80 + (n / 0x1000) % 0x40, 0x80 + (n / 0x40) % 0x40,
        0x80 + n % 0x40]

/-- Digit `d` of Go's `upperhex` table. -/
def upperhex (d : Nat) : Char :=
  "0123456789ABCDEF".toList.getD d '0'

/-- Digit `d` of Go's `lowerhex` table. -/
def lowerhex (d : Nat) : Char :=
  "0123456789abcdef".toList.getD d '0'

/-- Go `url.shouldEscape(c, encodePathSegment)` on a byte value. -/
def shouldEscape (b : Nat) : Bool :=
  if (0x61 ≤ b && b ≤ 0x7A) || (0x41 ≤ b && b ≤ 0x5A) || (0x30 ≤ b && b ≤ 0x39) then false
  else if b == 0x2D || b == 0x5F || b == 0x2E || b == 0x7E then false
  else if b == 0x24 || b == 0x26 || b == 0x2B || b == 0x2C || b == 0x2F || b == 0x3A
      || b == 0x3B || b == 0x3D || b == 0x3F || b == 0x40 then
    b == 0x2F || b == 0x3B || b == 0x2C || b == 0x3F
  else true

/-- One byte of the output of `url.escape`. -/
def escapeByte (b : Nat) : Str :=
  if shouldEscape b then ['%', upperhex (b / 16), upperhex (b % 16)]
  else [Char.ofNat b]

/-- Go `url.PathEscape`. -/
def PathEscape (s : Str) : Str :=
  (s.flatMap utf8Bytes).flatMap escapeByte

/-! ## The `%q` verb (`strconv.Quote`) -/

/-- Go `strconv.IsPrint`; for runes above Latin-1 the answer is read from the
tables of `strconv`, passed as `table`. -/
def IsPrint (table : Char → Bool) (c : Char) : Bool :=
  let n := c.toNat
  if n ≤ 0xFF then
    if 0x20 ≤ n && n < 0x7F then true
    else if 0xA1 ≤ n then n != 0xAD
    else false
  else table c

/-- The `digits` low hexadecimal digits of `n`, most significant first. -/
def hexDigits : Nat → Nat → Str
  | 0, _ => []
  | digits + 1, n => lowerhex ((n / 16 ^ digits) % 16) :: hexDigits digits n

/-- Go `strconv.appendEscapedRune` as `Quote` calls it (quote `"`, neither
`ASCIIonly` nor `graphicOnly`). -/
def escapedRune (table : Char → Bool) (c : Char) : Str :=
  let n := c.toNat
  if n = 0x22 || n = 0x5C then [Char.ofNat 0x5C, c]
  else if IsPrint table c then [c]
  else if n = 0x07 then [Char.ofNat 0x5C, 'a']
  else if n = 0x08 then [Char.ofNat 0x5C, 'b']
  else if n = 0x0C then [Char.ofNat 0x5C, 'f']
  else if n = 0x0A then [Char.ofNat 0x5C, 'n']
  else if n = 0x0D then [Char.ofNat 0x5C, 'r']
  else if n = 0x09 then [Char.ofNat 0x5C, 't']
  else if n = 0x0B then [Char.ofNat 0x5C, 'v']
  else if n < 0x20 || n = 0x7F then Char.ofNat 0x5C :: 'x' :: hexDigits 2 n
  else if n < 0x10000 then Char.ofNat 0x5C :: 'u' :: hexDigits 4 n
  else Char.ofNat 0x5C :: 'U' :: hexDigits 8 n

/-- Go `strconv.Quote`, the rendering of a string under `%q`. -/
def Quote (table : Char → Bool) (s : Str) : Str :=
  Char.ofNat 0x22 :: (s.flatMap (escapedRune table) ++ [Char.ofNat 0x22])

/-! ## Data of the registration workflow -/

/-- A Go `error`, identified with its message. -/
abbrev Err := Str

/-- The constants of `vsphere_csi.go`. -/
def cloudCredSecretName : Str := "vmware-vsphere-cloud-credentials".toList
/-- Namespace of the CSI driver. -/
def csiDriverNamespace : Str := "openshift-cluster-csi-drivers".toList
/-- Namespace of the cloud configuration. -/
def cloudConfigNamespace : Str := "openshift-config".toList
/-- Name of the CSI driver config map. -/
def vsphereCsiConfig : Str := "vsphere-csi-config".toList
/-- Where the CSI driver configuration is written. -/
def csiConfigLocation : Str := "/tmp/vsphere-csi.conf".toList
/-- Environment variable that points at `csiConfigLocation`. -/
def EnvVSphereCSIConfig : Str := "VSPHERE_CSI_CONFIG".toList

/-- The `Spec.CloudConfig` reference of the infrastructure object. -/
structure CloudConfigRef where
  name : Str
  key : Str
  deriving DecidableEq, Repr

/-- The fields of `vsphere.VSphereConfig` that the source reads or writes. -/
structure VSphereConfig where
  /-- Field `Global.User`. -/
  globalUser : Str
  /-- Field `Workspace.VCenterIP`. -/
  vCenterIP : Str
  /-- Field `Workspace.Datacenter`. -/
  datacenter : Str
  deriving DecidableEq, Repr

/-- The arguments of `cnsvsphere.GetContainerCluster`, which make up the
`CnsContainerCluster` value. -/
structure ContainerCluster where
  clusterId : Str
  user : Str
  flavor : Str
  distribution : Str
  deriving DecidableEq, Repr

/-- A `CnsBlockBackingDetails` as the loop builds it: one of its two fields set. -/
inductive BackingDetails where
  | diskId (backingDiskId : Str)
  | diskUrlPath (backingDiskUrlPath : Str)
  deriving DecidableEq, Repr

/-- The `CnsVolumeCreateSpec` handed to `CreateVolume`. -/
structure CreateSpec where
  name : Str
  volumeType : Str
  containerCluster : ContainerCluster
  containerClusterArray : List ContainerCluster
  profile : List Str
  backingObjectDetails : Option BackingDetails
  deriving DecidableEq, Repr

/-- A `CnsVolumeInfo`: the identifier of the created volume. -/
structure VolumeInfo where
  volumeId : Str
  deriving DecidableEq, Repr

/-- What `manager.CreateVolume` returns: the volume record (a pointer, `none`
for nil) and the error (`none` for nil). -/
structure CreateResult where
  volumeInfo : Option VolumeInfo
  err : Option Err
  deriving DecidableEq, Repr

/-- Side effects of a run: the local ones and the calls made to vCenter. -/
inductive Event where
  | writeFile (path content : Str)
  | setenv (name value : Str)
  | connectVCenter
  | getManager
  | getDatacenters
  | connectVslm
  | registerDisk (path name : Str)
  | createVolume (spec : CreateSpec)
  deriving DecidableEq, Repr

/-- Whether an event is a call to the vCenter backend. -/
def Event.isBackend : Event → Bool
  | .writeFile _ _ => false
  | .setenv _ _ => false
  | _ => true

/-- The answers of everything outside the process.  Calls made inside the
datacenter loop take the position of the candidate (from 0) as first argument,
so that the answer may change from one attempt to the next. -/
structure World where
  /-- Answer to `Infrastructures().Get(ctx, "cluster")`. -/
  getInfrastructure : Except Err CloudConfigRef
  /-- Answer to `ConfigMaps(namespace).Get(ctx, name)`: the `Data` map. -/
  getConfigMap : Str → Str → Except Err (Str → Option Str)
  /-- Result of `os.Create(csiConfigLocation)`. -/
  createFile : Option Err
  /-- Result of `file.WriteString`. -/
  writeString : Str → Option Err
  /-- Result of `gcfg.ReadStringInto`. -/
  readConfig : Str → Except Err VSphereConfig
  /-- Answer to `Secrets(namespace).Get(ctx, name)`: the `Data` map. -/
  getSecret : Str → Str → Except Err (Str → Option Str)
  /-- Answer to `PersistentVolumes().Get(ctx, name)`: the `VolumePath` of the
  `Spec.VsphereVolume`, `none` when that field is nil. -/
  getPersistentVolume : Str → Except Err (Option Str)
  /-- Result of `uuid.NewUUID` with the UUID rendered by `String()`. -/
  newUUID : Except Err Str
  /-- Tables of `strconv.IsPrint` above Latin-1. -/
  printTable : Char → Bool
  /-- Result of `cnsconfig.GetConfig`. -/
  getConfig : Option Err
  /-- Result of `cnsvsphere.GetVirtualCenterConfigs`: the hosts of the map, in
  the order the map is ranged over. -/
  getVirtualCenterConfigs : Except Err (List Str)
  /-- Result of `virtualCenter.Connect`. -/
  connect : Option Err
  /-- Result of `cnsvolume.GetManager`. -/
  getManager : Option Err
  /-- Result of `vCenter.GetDatacenters`: the inventory paths. -/
  getDatacenters : Except Err (List Str)
  /-- Field `vCenter.Client.ServiceContent.About.ApiVersion` at an attempt. -/
  apiVersion : Nat → Str
  /-- Result of `common.UseVslmAPIs` at an attempt. -/
  useVslmAPIs : Nat → Except Err Bool
  /-- Result of `csi.vCenter.ConnectVslm` at an attempt. -/
  connectVslm : Nat → Option Err
  /-- Result of `globalObjectManager.RegisterDisk(ctx, path, name)` at an
  attempt: the identifier of the new storage object, or the backend error. -/
  vslmRegisterDisk : Nat → Str → Str → Except Err Str
  /-- Result of `cnsvsphere.IsAlreadyExists` on a backend error. -/
  isAlreadyExists : Err → Bool × Str
  /-- Result of `manager.CreateVolume(ctx, createSpec, nil)` at an attempt. -/
  createVolume : Nat → CreateSpec → CreateResult

/-- The fields of `VsphereCSIDebugger` that the workflow assigns. -/
structure VsphereCSIDebugger where
  /-- Field `config`, `none` for nil. -/
  config : Option VSphereConfig
  /-- Field `vCenter`: whether a connected `VirtualCenter` is stored. -/
  vCenter : Bool
  deriving DecidableEq, Repr

/-- The debugger that `NewVSphereCSIDebugger` returns. -/
def NewVSphereCSIDebugger : VsphereCSIDebugger :=
  { config := none, vCenter := false }

/-! ## `writeCsiConfig` and `loginToVCenter` -/

/-- What a method of the debugger leaves behind. -/
structure Step (α : Type) where
  value : α
  csi : VsphereCSIDebugger
  trace : List Event

/-- The method `writeCsiConfig`. -/
def writeCsiConfig (w : World) (data : Str → Option Str) : Option Err × List Event :=
  match data "cloud.conf".toList with
  | none => (some "error writing csi configmap".toList, [])
  | some cfgString =>
    match w.createFile with
    | some e => (some e, [])
    | none =>
      match w.writeString cfgString with
      | some e => (some e, [])
      | none => (none, [Event.writeFile csiConfigLocation cfgString])

/-- Lines 67-107 of `loginToVCenter`: the cluster objects are read, the CSI
configuration is written out and the cloud configuration is parsed.  The
result is the parsed configuration and the `Data` of the credentials secret. -/
def readClusterObjects (w : World) :
    Except Err (VSphereConfig × (Str → Option Str)) × List Event :=
  match w.getInfrastructure with
  | .error e => (.error e, [])
  | .ok cloudConfig =>
  match w.getConfigMap cloudConfigNamespace cloudConfig.name with
  | .error e => (.error ("failed to get cloud config: ".toList ++ e), [])
  | .ok cloudConfigMap =>
  match w.getConfigMap csiDriverNamespace vsphereCsiConfig with
  | .error e => (.error ("failed to load csi driver config: ".toList ++ e), [])
  | .ok csiConfigMap =>
  match writeCsiConfig w csiConfigMap with
  | (some e, tr) => (.error ("failed to write csi driver config: ".toList ++ e), tr)
  | (none, tr) =>
  let tr := tr ++ [Event.setenv EnvVSphereCSIConfig csiConfigLocation]
  match cloudConfigMap cloudConfig.key with
  | none =>
    (.error ("cloud config ".toList ++ cloudConfigNamespace ++ "/".toList ++ cloudConfig.name
        ++ " does not contain key ".toList ++ Quote w.printTable cloudConfig.key), tr)
  | some cfgString =>
  match w.readConfig cfgString with
  | .error e => (.error e, tr)
  | .ok config =>
  match w.getSecret csiDriverNamespace cloudCredSecretName with
  | .error e => (.error e, tr)
  | .ok secret => (.ok (config, secret), tr)

/-- The message of line 111 and of line 119. -/
def secretKeyNotFound (w : World) (key : Str) : Err :=
  "error parsing secret ".toList ++ Quote w.printTable cloudCredSecretName
    ++ ": key ".toList ++ Quote w.printTable key ++ " not found".toList

/-- The method `loginToVCenter`: the returned error (`none` for nil), the
debugger afterwards and the local side effects. -/
def loginToVCenter (w : World) (csi : VsphereCSIDebugger) : Step (Option Err) :=
  match readClusterObjects w with
  | (.error e, tr) => ⟨some e, csi, tr⟩
  | (.ok (config, secret), tr) =>
  let vCenter := config.vCenterIP
  let userKey := vCenter ++ ".".toList ++ "username".toList
  match secret userKey with
  | none => ⟨some (secretKeyNotFound w userKey), csi, tr⟩
  | some username =>
  let tr := tr ++ [Event.setenv "VSPHERE_USER".toList username]
  let config := { config with globalUser := username }
  let passwordKey := vCenter ++ ".".toList ++ "password".toList
  match secret passwordKey with
  | none => ⟨some (secretKeyNotFound w passwordKey), csi, tr⟩
  | some password =>
  let tr := tr ++ [Event.setenv "VSPHERE_PASSWORD".toList password]
  ⟨none, { csi with config := some config }, tr⟩

/-- The method `getVolumePath`. -/
def getVolumePath (w : World) (pvName : Str) : Except Err Str :=
  match w.getPersistentVolume pvName with
  | .error e => .error e
  | .ok (some volumePath) => .ok volumePath
  | .ok none => .error "not a valid vsphere volume".toList

/-! ## `GetVirtualCenter` and `RegisterDisk` -/

/-- The method `GetVirtualCenterConfig`: the first configuration the range
over the map yields. -/
def GetVirtualCenterConfig (w : World) : Except Err Str :=
  match w.getConfig with
  | some e => .error e
  | none =>
    match w.getVirtualCenterConfigs with
    | .error e => .error e
    | .ok [] => .error "no virtual center found".toList
    | .ok (virtualCenterConfig :: _) => .ok virtualCenterConfig

/-- The method `GetVirtualCenter`: the error (`none` for nil), the debugger
afterwards and the connection attempt made. -/
def GetVirtualCenter (w : World) (csi : VsphereCSIDebugger) : Step (Option Err) :=
  match GetVirtualCenterConfig w with
  | .error e => ⟨some e, csi, []⟩
  | .ok _ =>
    match w.connect with
    | some e => ⟨some e, csi, [Event.connectVCenter]⟩
    | none => ⟨none, { csi with vCenter := true }, [Event.connectVCenter]⟩

/-- The method `RegisterDisk` at attempt `i`: the returned identifier and
error (`none` for nil), and the calls made. -/
def RegisterDisk (w : World) (i : Nat) (path name : Str) : (Str × Option Err) × List Event :=
  match w.connectVslm i with
  | some e => (([], some e), [Event.connectVslm])
  | none =>
    match w.vslmRegisterDisk i path name with
    | .error e =>
      if (w.isAlreadyExists e).1 then
        (((w.isAlreadyExists e).2, none), [Event.connectVslm, Event.registerDisk path name])
      else (([], some e), [Event.connectVslm, Event.registerDisk path name])
    | .ok id => ((id, none), [Event.connectVslm, Event.registerDisk path name])

/-! ## `RegisterCNSDisk` -/

/-- The value of `backingDiskURLPath` (lines 242-243). -/
def backingDiskURLPath (host vmdkPath datacenter datastoreName : Str) : Str :=
  "https://".toList ++ host ++ "/folder/".toList ++ vmdkPath ++ "?dcPath=".toList
    ++ PathEscape datacenter ++ "&dsName=".toList ++ PathEscape datastoreName

/-- The locals of `RegisterCNSDisk` that the datacenter loop reads. -/
structure LoopEnv where
  volumePath : Str
  vmdkPath : Str
  datastoreName : Str
  host : Str
  deriving DecidableEq, Repr

/-- Lines 242-258, the registration part of the attempt at position `i`: the
capability check, then `RegisterDisk` or the URL fallback.  The result is the
`BackingObjectDetails` for the create spec, or the error the loop returns. -/
def registrationStep (w : World) (env : LoopEnv) (i : Nat) (datacenter : Str) :
    Except Err BackingDetails × List Event :=
  let url := backingDiskURLPath env.host env.vmdkPath datacenter env.datastoreName
  match w.useVslmAPIs i with
  | .error e =>
    (.error ("Error while determining the correct APIs to use for vSphere version ".toList
        ++ Quote w.printTable (w.apiVersion i) ++ ", Error= ".toList ++ e), [])
  | .ok bUseVslmAPIs =>
    if bUseVslmAPIs then
      match RegisterDisk w i url env.volumePath with
      | ((_, some _), tr) =>
        (.error ("registration failed for volumePath: ".toList ++ env.volumePath), tr)
      | ((backingObjectID, none), tr) => (.ok (.diskId backingObjectID), tr)
    else (.ok (.diskUrlPath url), [])

/-- How the datacenter loop ends: `err` is the error it returns from inside
the loop, if any; `volumeInfo` is the local of that name when the loop is left. -/
structure LoopResult where
  err : Option Err
  volumeInfo : Option VolumeInfo
  trace : List Event
  deriving DecidableEq, Repr

/-- The loop of lines 238-266 over the candidates from position `i` on, entered
with the current `createSpec` and `volumeInfo`. -/
def datacenterLoop (w : World) (env : LoopEnv) :
    Nat → List Str → CreateSpec → Option VolumeInfo → LoopResult
  | _, [], _, volumeInfo => ⟨none, volumeInfo, []⟩
  | i, datacenter :: rest, createSpec, volumeInfo =>
    match registrationStep w env i datacenter with
    | (.error e, tr) => ⟨some e, volumeInfo, tr⟩
    | (.ok details, tr) =>
      let createSpec := { createSpec with backingObjectDetails := some details }
      let created := w.createVolume i createSpec
      if created.err.isSome then
        let next := datacenterLoop w env (i + 1) rest createSpec created.volumeInfo
        { next with trace := tr ++ Event.createVolume createSpec :: next.trace }
      else ⟨none, created.volumeInfo, tr ++ [Event.createVolume createSpec]⟩

/-- What a run of `RegisterCNSDisk` leaves behind: the returned error (`none`
for nil), the volume record reported on success (the local `volumeInfo` whose
identifier the last debug line prints), the debugger and the side effects in
order. -/
structure Outcome where
  err : Option Err
  volumeInfo : Option VolumeInfo
  csi : VsphereCSIDebugger
  trace : List Event
  deriving DecidableEq, Repr

/-- The candidate datacenters (lines 202-216). -/
def datacenterPaths (w : World) (datacenters : Str) : Except Err (List Str) × List Event :=
  if datacenters ≠ [] then (.ok (Split datacenters ','), [])
  else
    match w.getDatacenters with
    | .error e => (.error e, [Event.getDatacenters])
    | .ok dcs => (.ok ([] ++ dcs), [Event.getDatacenters])

/-- The create spec before the loop (lines 218-237); `storagePolicyID` is the
empty string, so no profile is added. -/
def initialCreateSpec (uuid user : Str) : CreateSpec :=
  let containerCluster : ContainerCluster :=
    ⟨"co8-dskwd".toList, user, "VANILLA".toList, "vanilla".toList⟩
  { name := uuid
    volumeType := "BLOCK".toList
    containerCluster := containerCluster
    containerClusterArray := [] ++ [containerCluster]
    profile := []
    backingObjectDetails := none }

/-- The state of `RegisterCNSDisk` on entry to the datacenter loop. -/
structure LoopInput where
  env : LoopEnv
  datacenterPaths : List Str
  createSpec : CreateSpec
  csi : VsphereCSIDebugger
  trace : List Event
  deriving DecidableEq, Repr

/-- Lines 186-237 of `RegisterCNSDisk`: connection to vCenter, volume manager,
candidate datacenters and create spec.  `Sum.inl` is an early return. -/
def connectAndList (w : World) (csi : VsphereCSIDebugger) (tr : List Event)
    (config : VSphereConfig) (uuid volumePath : Str) (parsed : ParsedPath) :
    Outcome ⊕ LoopInput :=
  let datacenters := config.datacenter
  let user := config.globalUser
  let host := config.vCenterIP
  let conn := GetVirtualCenter w csi
  match conn.value with
  | some e => .inl ⟨some e, none, conn.csi, tr ++ conn.trace⟩
  | none =>
  let csi := conn.csi
  let tr := tr ++ conn.trace ++ [Event.getManager]
  match w.getManager with
  | some e => .inl ⟨some e, none, csi, tr⟩
  | none =>
  match datacenterPaths w datacenters with
  | (.error e, tr2) => .inl ⟨some e, none, csi, tr ++ tr2⟩
  | (.ok paths, tr2) =>
    .inr { env := ⟨volumePath, parsed.vmdkPath, parsed.datastoreName, host⟩
           datacenterPaths := paths
           createSpec := initialCreateSpec uuid user
           csi := csi
           trace := tr ++ tr2 }

/-- Lines 157-237 of `RegisterCNSDisk`, everything before the datacenter loop.
`Sum.inl` is an early return with its outcome.  The call of `createClients`
only builds the two Kubernetes clients from the configuration and contacts
nothing; it is taken to succeed.  The source reads `csi.config`
after `loginToVCenter` returned nil, when the field is always set; the branch
for a nil `csi.config` is there for totality and is never taken. -/
def beforeLoop (w : World) (csi : VsphereCSIDebugger) (pvName : Str) : Outcome ⊕ LoopInput :=
  let login := loginToVCenter w csi
  match login.value with
  | some e => .inl ⟨some e, none, login.csi, login.trace⟩
  | none =>
  let csi := login.csi
  let tr := login.trace
  match w.newUUID with
  | .error e => .inl ⟨some e, none, csi, tr⟩
  | .ok uuid =>
  match getVolumePath w pvName with
  | .error e => .inl ⟨some e, none, csi, tr⟩
  | .ok volumePath =>
  match parseVolumePath volumePath with
  | none =>
    .inl ⟨some ("failed to extract datastore name from in-tree volume path: ".toList
        ++ Quote w.printTable volumePath), none, csi, tr⟩
  | some parsed =>
  match csi.config with
  | none => .inl ⟨some "nil pointer dereference".toList, none, csi, tr⟩
  | some config => connectAndList w csi tr config uuid volumePath parsed

/-- Lines 267-273 of `RegisterCNSDisk`, and the return of an error raised in
the loop. -/
def afterLoop (inp : LoopInput) (loop : LoopResult) : Outcome :=
  match loop.err with
  | some e => ⟨some e, none, inp.csi, inp.trace ++ loop.trace⟩
  | none =>
    match loop.volumeInfo with
    | some info => ⟨none, some info, inp.csi, inp.trace ++ loop.trace⟩
    | none =>
      ⟨some ("registration failed for volumeSpec: ".toList ++ inp.env.volumePath), none,
        inp.csi, inp.trace ++ loop.trace⟩

/-- The method `RegisterCNSDisk`. -/
def RegisterCNSDisk (w : World) (csi : VsphereCSIDebugger) (pvName : Str) : Outcome :=
  match beforeLoop w csi pvName with
  | .inl out => out
  | .inr inp =>
    afterLoop inp (datacenterLoop w inp.env 0 inp.datacenterPaths inp.createSpec none)

/-! ## The command `register-cns-volume` -/

/-- What `os.Stat` answers. -/
inductive StatResult where
  | found
  | notExist
  | otherError
  deriving DecidableEq, Repr

/-- The function `fileExists` of `main.go`. -/
def fileExists (stat : Str → StatResult) (filename : Str) : Bool :=
  match stat filename with
  | .found => true
  | .notExist => false
  | .otherError => false

/-- The surroundings of one invocation of the command. -/
structure Invocation where
  /-- Value of the flag `-pv` after `flag.Parse`, the empty string when absent. -/
  pv : Str
  /-- The variable `KUBECONFIG`, `none` when it is not set. -/
  kubeconfigEnv : Option Str
  /-- Answer of `os.Stat`. -/
  stat : Str → StatResult
  /-- Error of `clientcmd.BuildConfigFromFlags("", path)`, `none` for nil. -/
  buildConfig : Str → Option Err
  /-- The cluster and vCenter reached through the built configuration. -/
  cluster : World

/-- How `main` ends. `printed` lists what `main` itself wrote with `fmt.Printf`. -/
inductive Exit where
  /-- Exit through `klog.Fatalf`. -/
  | fatal (msg : Str)
  /-- Run-time panic: a nil pointer is dereferenced. -/
  | nilDereference
  /-- Function `main` returns; the registration ran with the given outcome. -/
  | returned (printed : List Str) (registration : Outcome)
  deriving DecidableEq, Repr

/-- The function `main`.  The pointer `kubeconfig` is an `Option`: `none` is
nil, and `*kubeconfig` on `none` is the nil dereference.  The constructor
`NewVSphereCSIDebugger` never returns an error. -/
def main (inv : Invocation) : Exit :=
  let kubeConfigEnv := inv.kubeconfigEnv.getD []
  let kubeconfig : Option Str :=
    if kubeConfigEnv ≠ [] && fileExists inv.stat kubeConfigEnv then some kubeConfigEnv
    else none
  if inv.pv = [] then .fatal "Specify pv Name to migrate".toList
  else
    match kubeconfig with
    | none => .nilDereference
    | some path =>
      let printed := ["KubeConfig is: ".toList ++ path ++ "\n".toList]
      match inv.buildConfig path with
      | some e => .fatal ("error building kubeconfig: ".toList ++ e)
      | none =>
        let out := RegisterCNSDisk inv.cluster NewVSphereCSIDebugger inv.pv
        match out.err with
        | some e => .returned (printed ++ ["error registering disk: ".toList ++ e]) out
        | none => .returned printed out


/-! ## Vocabulary of the properties -/

/-- A bracket token: `[`, then runes other than the square brackets, then `]`. -/
def IsBracketToken (t : Str) : Prop :=
  ∃ body : Str, t = '[' :: (body ++ [']']) ∧ ∀ c ∈ body, c ≠ '[' ∧ c ≠ ']'

/-- The string has a substring that is a bracket token. -/
def HasBracketToken (s : Str) : Prop :=
  ∃ pre t post : Str, s = pre ++ t ++ post ∧ IsBracketToken t

/-- The token `tok` is the first bracket token of `s`, standing between `pre`
and `post`: no bracket token of `s` starts further left. -/
def IsFirstToken (s pre tok post : Str) : Prop :=
  s = pre ++ tok ++ post ∧ IsBracketToken tok ∧
    ∀ pre2 t2 post2 : Str, s = pre2 ++ t2 ++ post2 → IsBracketToken t2 →
      pre.length ≤ pre2.length

/-- The registration part of the attempt on the candidate at position `i`,
with the arguments it has in the run that enters the loop as `inp`. -/
def attemptRegistration (w : World) (inp : LoopInput) (i : Nat) :
    Except Err BackingDetails × List Event :=
  registrationStep w inp.env i (inp.datacenterPaths.getD i [])

/-- The create spec of an attempt whose registration part gave `details`. -/
def attemptSpec (inp : LoopInput) (details : BackingDetails) : CreateSpec :=
  { inp.createSpec with backingObjectDetails := some details }

/-- In the attempt at position `i` the registration part succeeds and the
volume creation fails, that is, returns an error. -/
def AttemptCreationFails (w : World) (inp : LoopInput) (i : Nat) : Prop :=
  ∃ details, (attemptRegistration w inp i).1 = .ok details
    ∧ (w.createVolume i (attemptSpec inp details)).err.isSome = true

/-- In the attempt at position `i` the registration part succeeds and the
volume creation succeeds with the volume record `record`. -/
def AttemptSucceeds (w : World) (inp : LoopInput) (i : Nat) (record : VolumeInfo) : Prop :=
  ∃ details, (attemptRegistration w inp i).1 = .ok details
    ∧ w.createVolume i (attemptSpec inp details) = ⟨some record, none⟩

/-- The attempt at position `i` yields no volume record: its registration part
fails, or its volume creation returns no record (with or without an error). -/
def AttemptYieldsNoRecord (w : World) (inp : LoopInput) (i : Nat) : Prop :=
  match (attemptRegistration w inp i).1 with
  | .error _ => True
  | .ok details => (w.createVolume i (attemptSpec inp details)).volumeInfo = none

/-- The calls of a complete attempt at position `i`: those of its registration
part, then the volume creation. -/
def attemptEvents (w : World) (inp : LoopInput) (i : Nat) : List Event :=
  match (attemptRegistration w inp i).1 with
  | .ok details =>
    (attemptRegistration w inp i).2 ++ [Event.createVolume (attemptSpec inp details)]
  | .error _ => (attemptRegistration w inp i).2

/-- A rune that `%q` renders as itself. -/
def plainRune (table : Char → Bool) (c : Char) : Prop :=
  IsPrint table c = true ∧ c.toNat ≠ 0x22 ∧ c.toNat ≠ 0x5C

/-! ## Sample worlds -/

/-- A cluster whose vCenter is `vcenter.example.com` with the datacenters `DC0`
and `DC1` configured, and a persistent volume at `[ds1] vols/pv-1.vmdk`.  Every
call succeeds, except that volume creation fails for the first candidate. -/
def sampleWorld : World where
  getInfrastructure := .ok ⟨"cloud-provider-config".toList, "config".toList⟩
  getConfigMap := fun _ _ => .ok (fun _ => some "[Workspace]".toList)
  createFile := none
  writeString := fun _ => none
  readConfig := fun _ => .ok ⟨[], "vcenter.example.com".toList, "DC0,DC1".toList⟩
  getSecret := fun _ _ => .ok (fun key =>
    if key = "vcenter.example.com.username".toList then some "administrator".toList
    else if key = "vcenter.example.com.password".toList then some "secret".toList
    else none)
  getPersistentVolume := fun _ => .ok (some "[ds1] vols/pv-1.vmdk".toList)
  newUUID := .ok "6ba7b810-9dad-11d1-80b4-00c04fd430c8".toList
  printTable := fun _ => true
  getConfig := none
  getVirtualCenterConfigs := .ok ["vcenter.example.com".toList]
  connect := none
  getManager := none
  getDatacenters := .ok []
  apiVersion := fun _ => "7.0.3".toList
  useVslmAPIs := fun _ => .ok true
  connectVslm := fun _ => none
  vslmRegisterDisk := fun _ _ _ => .ok "fcd-1".toList
  isAlreadyExists := fun _ => (false, [])
  createVolume := fun i _ =>
    if i = 0 then ⟨none, some "datastore not found".toList⟩ else ⟨some ⟨"vol-1".toList⟩, none⟩

/-- The state in which the run on `sampleWorld` enters the datacenter loop. -/
def sampleInput : LoopInput :=
  match beforeLoop sampleWorld NewVSphereCSIDebugger "pv-1".toList with
  | .inr inp => inp
  | .inl out => ⟨⟨[], [], [], []⟩, [], initialCreateSpec [] [], out.csi, out.trace⟩

/-- As `sampleWorld`, with a persistent volume whose path has no bracket. -/
def noBracketWorld : World :=
  { sampleWorld with getPersistentVolume := fun _ => .ok (some "disks/vol1.vmdk".toList) }

/-- As `sampleWorld`, but disk registration fails for the first candidate and
volume creation succeeds for every candidate. -/
def registerFailsWorld : World :=
  { sampleWorld with
    vslmRegisterDisk := fun i _ _ =>
      if i = 0 then .error "datastore not found".toList else .ok "fcd-1".toList
    createVolume := fun _ _ => ⟨some ⟨"vol-1".toList⟩, none⟩ }

/-- The state in which the run on `registerFailsWorld` enters the loop. -/
def registerFailsInput : LoopInput :=
  match beforeLoop registerFailsWorld NewVSphereCSIDebugger "pv-1".toList with
  | .inr inp => inp
  | .inl out => ⟨⟨[], [], [], []⟩, [], initialCreateSpec [] [], out.csi, out.trace⟩

/-- As `sampleWorld` with the three candidates `DC0`, `DC1` and `DC2`: volume
creation fails for the first, disk registration fails for the second, and
everything would succeed for the third. -/
def registerFailsLaterWorld : World :=
  { sampleWorld with
    readConfig := fun _ => .ok ⟨[], "vcenter.example.com".toList, "DC0,DC1,DC2".toList⟩
    vslmRegisterDisk := fun i _ _ =>
      if i = 1 then .error "datastore not found".toList else .ok "fcd-1".toList }

/-- The state in which the run on `registerFailsLaterWorld` enters the loop. -/
def registerFailsLaterInput : LoopInput :=
  match beforeLoop registerFailsLaterWorld NewVSphereCSIDebugger "pv-1".toList with
  | .inr inp => inp
  | .inl out => ⟨⟨[], [], [], []⟩, [], initialCreateSpec [] [], out.csi, out.trace⟩

/-- As `sampleWorld`, but every volume creation returns an error together with
a volume record. -/
def recordWithErrorWorld : World :=
  { sampleWorld with
    createVolume := fun _ _ => ⟨some ⟨"vol-1".toList⟩, some "task failed".toList⟩ }

/-- The state in which the run on `recordWithErrorWorld` enters the loop. -/
def recordWithErrorInput : LoopInput :=
  match beforeLoop recordWithErrorWorld NewVSphereCSIDebugger "pv-1".toList with
  | .inr inp => inp
  | .inl out => ⟨⟨[], [], [], []⟩, [], initialCreateSpec [] [], out.csi, out.trace⟩

/-- As `sampleWorld`, but every volume creation fails. -/
def allFailWorld : World :=
  { sampleWorld with createVolume := fun _ _ => ⟨none, some "datastore not found".toList⟩ }

/-- The state in which the run on `allFailWorld` enters the loop. -/
def allFailInput : LoopInput :=
  match beforeLoop allFailWorld NewVSphereCSIDebugger "pv-1".toList with
  | .inr inp => inp
  | .inl out => ⟨⟨[], [], [], []⟩, [], initialCreateSpec [] [], out.csi, out.trace⟩

/-- A cluster whose configured vCenter host holds a double quote, and whose
credentials secret is empty. -/
def quotedHostWorld : World :=
  { sampleWorld with
    readConfig := fun _ => .ok ⟨[], ['v', 'c', Char.ofNat 0x22, '1'], "DC0".toList⟩
    getSecret := fun _ _ => .ok (fun _ => none) }

/-- As `sampleWorld`, with an empty credentials secret. -/
def emptySecretWorld : World :=
  { sampleWorld with getSecret := fun _ _ => .ok (fun _ => none) }

/-- As `sampleWorld`, but the disk is already registered as `fcd-7`: the
backend registration fails with an already-exists error that carries it. -/
def alreadyExistsWorld : World :=
  { sampleWorld with
    vslmRegisterDisk := fun _ _ _ => .error "already exists".toList
    isAlreadyExists := fun e => (e == "already exists".toList, "fcd-7".toList) }

/-- An invocation with a volume name and no `KUBECONFIG` in the environment. -/
def noKubeconfigInvocation : Invocation where
  pv := "pv-1".toList
  kubeconfigEnv := none
  stat := fun _ => .notExist
  buildConfig := fun _ => none
  cluster := sampleWorld

/-! # Properties -/

/-! ## Bracket tokens and the regular expression -/

theorem notBracket_iff (c : Char) : notBracket c = true ↔ c ≠ '[' ∧ c ≠ ']' := by
  simp [notBracket]

theorem takeWhile_append_stop {p : Char → Bool} (body : Str) (d : Char) (post : Str)
    (hbody : ∀ c ∈ body, p c = true) (hd : p d = false) :
    (body ++ d :: post).takeWhile p = body := by
  induction body with
  | nil => simp [List.takeWhile_cons, hd]
  | cons b bs ih =>
    have hb : p b = true := hbody b (List.mem_cons_self _ _)
    have := ih (fun c hc => hbody c (List.mem_cons_of_mem _ hc))
    simp [List.takeWhile_cons, hb, this]

theorem dropWhile_append_stop {p : Char → Bool} (body : Str) (d : Char) (post : Str)
    (hbody : ∀ c ∈ body, p c = true) (hd : p d = false) :
    (body ++ d :: post).dropWhile p = d :: post := by
  induction body with
  | nil => simp [List.dropWhile_cons, hd]
  | cons b bs ih =>
    have hb : p b = true := hbody b (List.mem_cons_self _ _)
    have := ih (fun c hc => hbody c (List.mem_cons_of_mem _ hc))
    simp [List.dropWhile_cons, hb, this]

theorem matchAtStart_token (body post : Str) (hbody : ∀ c ∈ body, c ≠ '[' ∧ c ≠ ']') :
    matchAtStart ('[' :: (body ++ ']' :: post)) = some ('[' :: (body ++ [']'])) := by
  have hb : ∀ c ∈ body, notBracket c = true := fun c hc => (notBracket_iff c).2 (hbody c hc)
  have hd : notBracket ']' = false := by decide
  simp [matchAtStart, takeWhile_append_stop body ']' post hb hd,
    dropWhile_append_stop body ']' post hb hd]

theorem matchAtStart_eq_some {s t : Str} (h : matchAtStart s = some t) :
    ∃ body post : Str, s = '[' :: (body ++ ']' :: post) ∧ t = '[' :: (body ++ [']'])
      ∧ ∀ c ∈ body, c ≠ '[' ∧ c ≠ ']' := by
  cases s with
  | nil => simp [matchAtStart] at h
  | cons c rest =>
    simp only [matchAtStart] at h
    split_ifs at h with hc
    · cases hdw : rest.dropWhile notBracket with
      | nil => simp [hdw] at h
      | cons d post =>
        simp only [hdw] at h
        split_ifs at h with hd
        · refine ⟨rest.takeWhile notBracket, post, ?_, ?_, ?_⟩
          · have := List.takeWhile_append_dropWhile notBracket rest
            rw [hdw, hd] at this
            rw [hc, this]
          · simpa using h.symm
          · intro x hx
            exact (notBracket_iff x).1 (List.mem_takeWhile_imp hx)

theorem matchAtStart_eq_some_iff (s t : Str) :
    matchAtStart s = some t ↔
      ∃ body post : Str, s = '[' :: (body ++ ']' :: post) ∧ t = '[' :: (body ++ [']'])
        ∧ ∀ c ∈ body, c ≠ '[' ∧ c ≠ ']' := by
  constructor
  · exact matchAtStart_eq_some
  · rintro ⟨body, post, rfl, rfl, hb⟩
    exact matchAtStart_token body post hb

theorem findFirst_cons (c : Char) (rest : Str) :
    findFirst (c :: rest) =
      match matchAtStart (c :: rest) with
      | some tok => some tok
      | none => findFirst rest := by
  simp only [findFirst]

theorem isBracketToken_ne_nil {t : Str} (h : IsBracketToken t) : t ≠ [] := by
  obtain ⟨body, rfl, -⟩ := h
  simp

/-- A token at the very start of the string is what `matchAtStart` returns. -/
theorem matchAtStart_token_append {t : Str} (post : Str) (h : IsBracketToken t) :
    matchAtStart (t ++ post) = some t := by
  obtain ⟨body, rfl, hb⟩ := h
  have := matchAtStart_token body post hb
  simpa using this

/-- The expression matches nowhere exactly when the string has no bracket token. -/
theorem findFirst_eq_none_iff (s : Str) : findFirst s = none ↔ ¬ HasBracketToken s := by
  induction s with
  | nil =>
    simp only [findFirst, true_iff]
    rintro ⟨pre, t, post, h, ht⟩
    have : t = [] := by
      have h2 := congrArg List.length h
      simp at h2
      exact List.length_eq_zero.1 (by omega)
    exact isBracketToken_ne_nil ht this
  | cons c rest ih =>
    rw [findFirst_cons]
    constructor
    · intro h
      rintro ⟨pre, t, post, hs, ht⟩
      cases pre with
      | nil =>
        have hm : matchAtStart (c :: rest) = some t := by
          rw [hs]; simpa using matchAtStart_token_append post ht
        rw [hm] at h
        exact Option.noConfusion h
      | cons p pre =>
        cases hm : matchAtStart (c :: rest) with
        | some tok => rw [hm] at h; exact Option.noConfusion h
        | none =>
          rw [hm] at h
          simp only [List.cons_append, List.cons.injEq] at hs
          exact (ih.1 h) ⟨pre, t, post, hs.2, ht⟩
    · intro h
      cases hm : matchAtStart (c :: rest) with
      | some tok =>
        exfalso
        obtain ⟨body, post, hs, rfl, hb⟩ := matchAtStart_eq_some hm
        exact h ⟨[], _, post, by simpa using hs, body, rfl, hb⟩
      | none =>
        simp only
        apply ih.2
        rintro ⟨pre, t, post, hs, ht⟩
        exact h ⟨c :: pre, t, post, by simp [hs], ht⟩

/-- The first match is a bracket token of the string, and no bracket token of
the string starts further left. -/
theorem findFirst_eq_some {s t : Str} (h : findFirst s = some t) :
    IsBracketToken t ∧ ∃ pre post : Str, s = pre ++ t ++ post ∧
      ∀ pre2 t2 post2 : Str, s = pre2 ++ t2 ++ post2 → IsBracketToken t2 →
        pre.length ≤ pre2.length := by
  induction s with
  | nil => simp [findFirst] at h
  | cons c rest ih =>
    rw [findFirst_cons] at h
    cases hm : matchAtStart (c :: rest) with
    | some tok =>
      rw [hm] at h
      simp only [Option.some.injEq] at h
      subst h
      obtain ⟨body, post, hs, rfl, hb⟩ := matchAtStart_eq_some hm
      refine ⟨⟨body, rfl, hb⟩, [], post, by simpa using hs, ?_⟩
      intros
      simp
    | none =>
      rw [hm] at h
      simp only at h
      obtain ⟨ht, pre, post, hs, hleft⟩ := ih h
      refine ⟨ht, c :: pre, post, by simp [hs], ?_⟩
      intro pre2 t2 post2 hs2 ht2
      cases pre2 with
      | nil =>
        exfalso
        have : matchAtStart (c :: rest) = some t2 := by
          rw [hs2]; simpa using matchAtStart_token_append post2 ht2
        rw [this] at hm
        exact Option.noConfusion hm
      | cons p pre2 =>
        simp only [List.cons_append, List.cons.injEq] at hs2
        have := hleft pre2 t2 post2 hs2.2 ht2
        simpa using this

theorem MatchString_iff (s : Str) : MatchString s = true ↔ HasBracketToken s := by
  unfold MatchString
  rw [← not_iff_not, ← findFirst_eq_none_iff]
  cases findFirst s <;> simp

/-! ## The trimming routines -/

theorem dropWhile_of_head_false {p : Char → Bool} (c : Char) (s : Str) (h : p c = false) :
    (c :: s).dropWhile p = c :: s := by
  simp [List.dropWhile_cons, h]

theorem TrimRightFunc_append_stop {p : Char → Bool} (s : Str) (c : Char) (h : p c = false) :
    TrimRightFunc (s ++ [c]) p = s ++ [c] := by
  simp [TrimRightFunc, List.dropWhile_cons, h]

theorem TrimRightFunc_append_drop {p : Char → Bool} (s : Str) (c : Char) (h : p c = true) :
    TrimRightFunc (s ++ [c]) p = TrimRightFunc s p := by
  simp [TrimRightFunc, List.dropWhile_cons, h]

theorem TrimRightFunc_nil (p : Char → Bool) : TrimRightFunc [] p = [] := by
  simp [TrimRightFunc]

theorem eq_nil_or_snoc (s : Str) : s = [] ∨ ∃ (init : Str) (c : Char), s = init ++ [c] := by
  rcases List.eq_nil_or_concat s with h | ⟨init, c, h⟩
  · exact Or.inl h
  · exact Or.inr ⟨init, c, by rw [h, List.concat_eq_append]⟩

/-- A string whose last rune fails the predicate is left alone on the right. -/
theorem TrimRightFunc_of_getLast {p : Char → Bool} (s : Str)
    (h : ∀ c ∈ s.getLast?, p c = false) : TrimRightFunc s p = s := by
  rcases eq_nil_or_snoc s with rfl | ⟨init, c, rfl⟩
  · exact TrimRightFunc_nil p
  · exact TrimRightFunc_append_stop init c (h c (by simp))

/-- Stripping the brackets of a token leaves its body (line 183). -/
theorem Trim_token (body : Str) (hbody : ∀ c ∈ body, c ≠ '[' ∧ c ≠ ']') :
    Trim (Trim ('[' :: (body ++ [']'])) ['[']) [']'] = body := by
  have step1 : Trim ('[' :: (body ++ [']'])) ['['] = body ++ [']'] := by
    unfold Trim
    have hl : TrimLeftFunc ('[' :: (body ++ [']'])) (fun c => decide (c ∈ ['['])) =
        body ++ [']'] := by
      unfold TrimLeftFunc
      rw [List.dropWhile_cons]
      simp only [List.mem_singleton, decide_True, if_true]
      cases body with
      | nil => simp [List.dropWhile_cons]
      | cons b bs =>
        have : b ≠ '[' := (hbody b (List.mem_cons_self _ _)).1
        simp [List.dropWhile_cons, this]
    rw [hl]
    exact TrimRightFunc_append_stop body ']' (by simp)
  rw [step1]
  unfold Trim
  rcases eq_nil_or_snoc body with rfl | ⟨init, c, rfl⟩
  · simp [TrimLeftFunc, TrimRightFunc, List.dropWhile_cons]
  · have hc : c ≠ ']' := (hbody c (by simp)).2
    have hl : TrimLeftFunc (init ++ [c] ++ [']']) (fun c => decide (c ∈ [']'])) =
        init ++ [c] ++ [']'] := by
      unfold TrimLeftFunc
      cases init with
      | nil => simp [List.dropWhile_cons, hc]
      | cons b bs =>
        have : b ≠ ']' := (hbody b (by simp)).2
        simp [List.dropWhile_cons, this]
    rw [hl, TrimRightFunc_append_drop _ _ (by simp)]
    exact TrimRightFunc_append_stop init c (by simp [hc])

theorem TrimPrefix_append (t rest : Str) : TrimPrefix (t ++ rest) t = rest := by
  simp [TrimPrefix, HasPrefix, List.isPrefixOf_iff_prefix]

theorem TrimPrefix_unchanged (s t : Str) (h : ¬ t <+: s) : TrimPrefix s t = s := by
  simp [TrimPrefix, HasPrefix, List.isPrefixOf_iff_prefix, h]

theorem TrimSpace_cons_space (c : Char) (s : Str) (h : isSpace c = true) :
    TrimSpace (c :: s) = TrimSpace s := by
  simp [TrimSpace, TrimLeftFunc, List.dropWhile_cons, h]

/-- What `strings.TrimSpace` does: it removes a run of white space on either
side, and what is left neither starts nor ends with white space. -/
theorem TrimSpace_spec (s : Str) :
    ∃ l r : Str, s = l ++ TrimSpace s ++ r ∧ (∀ c ∈ l, isSpace c = true)
      ∧ (∀ c ∈ r, isSpace c = true)
      ∧ (∀ c ∈ (TrimSpace s).head?, isSpace c = false)
      ∧ (∀ c ∈ (TrimSpace s).getLast?, isSpace c = false) := by
  have hs : s = s.takeWhile isSpace ++ s.dropWhile isSpace :=
    (List.takeWhile_append_dropWhile isSpace s).symm
  have hm : s.dropWhile isSpace = TrimSpace s ++
      ((s.dropWhile isSpace).reverse.takeWhile isSpace).reverse := by
    have h := congrArg List.reverse
      (List.takeWhile_append_dropWhile isSpace (s.dropWhile isSpace).reverse)
    rw [List.reverse_append, List.reverse_reverse] at h
    simp only [TrimSpace, TrimRightFunc, TrimLeftFunc]
    exact h.symm
  refine ⟨s.takeWhile isSpace, ((s.dropWhile isSpace).reverse.takeWhile isSpace).reverse,
    ?_, ?_, ?_, ?_, ?_⟩
  · rw [List.append_assoc, ← hm]; exact hs
  · intro c hc; exact List.mem_takeWhile_imp hc
  · intro c hc; exact List.mem_takeWhile_imp (List.mem_reverse.1 hc)
  · intro c hc
    have h1 := List.head?_dropWhile_not isSpace s
    have h2 : (s.dropWhile isSpace).head? = some c := by
      rw [hm, List.head?_append]
      rw [Option.mem_def] at hc
      simp [hc]
    rw [h2] at h1
    exact h1
  · intro c hc
    have h1 := List.head?_dropWhile_not isSpace (s.dropWhile isSpace).reverse
    have h2 : ((s.dropWhile isSpace).reverse.dropWhile isSpace).head? = some c := by
      rw [Option.mem_def] at hc
      simpa [TrimSpace, TrimRightFunc, TrimLeftFunc] using hc
    rw [h2] at h1
    exact h1

/-! ## `strings.Split` and the last segment -/

theorem Split_snoc (s : Str) (sep : Char) :
    ∃ (init : List Str) (last : Str), Split s sep = init ++ [last] ∧ sep ∉ last
      ∧ (init = [] → s = last) ∧ (init ≠ [] → ∃ pre : Str, s = pre ++ sep :: last) := by
  induction s with
  | nil => exact ⟨[], [], by simp [Split], by simp, fun _ => rfl, fun h => absurd rfl h⟩
  | cons c cs ih =>
    obtain ⟨init, last, hsplit, hsep, hnil, hcons⟩ := ih
    by_cases hc : c = sep
    · refine ⟨[] :: init, last, by simp [Split, hc, hsplit], hsep, by simp, fun _ => ?_⟩
      by_cases hi : init = []
      · exact ⟨[], by simp [hc, ← hnil hi]⟩
      · obtain ⟨pre, hpre⟩ := hcons hi
        exact ⟨c :: pre, by simp [hpre]⟩
    · cases init with
      | nil =>
        refine ⟨[], c :: last, by simp [Split, hc, hsplit], ?_, fun _ => by rw [hnil rfl],
          fun h => absurd rfl h⟩
        simp only [List.mem_cons, not_or]
        exact ⟨fun h => hc h.symm, hsep⟩
      | cons i0 irest =>
        refine ⟨(c :: i0) :: irest, last, by simp [Split, hc, hsplit], hsep, by simp,
          fun _ => ?_⟩
        obtain ⟨pre, hpre⟩ := hcons (by simp)
        exact ⟨c :: pre, by simp [hpre]⟩

/-- The last segment holds no `/`, and the string is the last segment alone or
ends in `/` followed by the last segment. -/
theorem lastSegment_spec (s : Str) :
    '/' ∉ lastSegment s ∧ (s = lastSegment s ∨ ∃ pre : Str, s = pre ++ '/' :: lastSegment s) := by
  obtain ⟨init, last, hsplit, hsep, hnil, hcons⟩ := Split_snoc s '/'
  have hl : lastSegment s = last := by simp [lastSegment, hsplit]
  rw [hl]
  refine ⟨hsep, ?_⟩
  by_cases hi : init = []
  · exact Or.inl (hnil hi)
  · exact Or.inr (hcons hi)

/-! ## Path parsing -/

/-- The parse of a path with a match, in terms of the first match. -/
theorem parseVolumePath_of_findFirst {volumePath tok : Str} (h : findFirst volumePath = some tok) :
    parseVolumePath volumePath = some
      { datastoreName := lastSegment (Trim (Trim tok ['[']) [']'])
        vmdkPath := TrimSpace (TrimPrefix volumePath tok) } := by
  simp [parseVolumePath, MatchString, h]

theorem parseVolumePath_eq_none_iff (volumePath : Str) :
    parseVolumePath volumePath = none ↔ ¬ HasBracketToken volumePath := by
  rw [← findFirst_eq_none_iff]
  cases h : findFirst volumePath with
  | none => simp [parseVolumePath, MatchString, h]
  | some tok => simp [parseVolumePath_of_findFirst h]

theorem findFirst_token_append {t : Str} (post : Str) (h : IsBracketToken t) :
    findFirst (t ++ post) = some t := by
  obtain ⟨body, rfl, hb⟩ := h
  have hm := matchAtStart_token body post hb
  have : ('[' :: (body ++ [']'])) ++ post = '[' :: (body ++ ']' :: post) := by simp
  rw [this, findFirst_cons, hm]

theorem findFirst_of_isFirstToken {s pre tok post : Str} (h : IsFirstToken s pre tok post) :
    findFirst s = some tok := by
  obtain ⟨hs, htok, hleft⟩ := h
  cases hf : findFirst s with
  | none => exact absurd ⟨pre, tok, post, hs, htok⟩ ((findFirst_eq_none_iff s).1 hf)
  | some t =>
    obtain ⟨ht, pre1, post1, hs1, hleft1⟩ := findFirst_eq_some hf
    have h1 : pre1.length ≤ pre.length := hleft1 pre tok post hs htok
    have h2 : pre.length ≤ pre1.length := hleft pre1 t post1 hs1 ht
    have hlen : pre1.length = pre.length := le_antisymm h1 h2
    have heq : pre1 ++ (t ++ post1) = pre ++ (tok ++ post) := by
      rw [← List.append_assoc, ← List.append_assoc, ← hs1, ← hs]
    have htail : t ++ post1 = tok ++ post := (List.append_inj heq hlen).2
    have m1 := matchAtStart_token_append post1 ht
    have m2 := matchAtStart_token_append post htok
    rw [htail, m2] at m1
    exact m1.symm

theorem findFirst_eq_some_iff (s tok : Str) :
    findFirst s = some tok ↔ ∃ pre post : Str, IsFirstToken s pre tok post := by
  constructor
  · intro h
    obtain ⟨ht, pre, post, hs, hleft⟩ := findFirst_eq_some h
    exact ⟨pre, post, hs, ht, hleft⟩
  · rintro ⟨pre, post, h⟩
    exact findFirst_of_isFirstToken h

theorem dropWhile_keeps_infix (p : Char → Bool) (pre : Str) (c : Char) (tail : Str)
    (hc : p c = false) :
    ∃ pre2 : Str, (pre ++ c :: tail).dropWhile p = pre2 ++ c :: tail := by
  induction pre with
  | nil => exact ⟨[], by simp [List.dropWhile_cons, hc]⟩
  | cons a pre ih =>
    by_cases ha : p a = true
    · obtain ⟨pre2, h⟩ := ih
      exact ⟨pre2, by simp [List.dropWhile_cons, ha, h]⟩
    · exact ⟨a :: pre, by simp [List.dropWhile_cons, ha]⟩

/-- Trimming white space does not cut into a substring that starts and ends
with a rune that is not white space. -/
theorem infix_TrimSpace {t s : Str} (h : t <:+: s)
    (hhead : ∃ (c : Char) (tl : Str), t = c :: tl ∧ isSpace c = false)
    (hlast : ∃ (init : Str) (c : Char), t = init ++ [c] ∧ isSpace c = false) :
    t <:+: TrimSpace s := by
  obtain ⟨pre, post, hs⟩ := h
  obtain ⟨c, tl, ht, hc⟩ := hhead
  obtain ⟨init, d, ht2, hd⟩ := hlast
  have hs2 : s = pre ++ c :: (tl ++ post) := by rw [← hs, ht]; simp
  obtain ⟨pre2, h1⟩ := dropWhile_keeps_infix isSpace pre c (tl ++ post) hc
  have h1b : s.dropWhile isSpace = pre2 ++ t ++ post := by rw [hs2, h1, ht]; simp
  have hrev : (pre2 ++ t ++ post).reverse = post.reverse ++ d :: (init.reverse ++ pre2.reverse) := by
    rw [ht2]; simp
  obtain ⟨post2, h2⟩ := dropWhile_keeps_infix isSpace post.reverse d
    (init.reverse ++ pre2.reverse) hd
  refine ⟨pre2, post2.reverse, ?_⟩
  simp only [TrimSpace, TrimRightFunc, TrimLeftFunc]
  rw [h1b, hrev, h2, ht2]
  simp

theorem isBracketToken_head {t : Str} (h : IsBracketToken t) :
    ∃ (c : Char) (tl : Str), t = c :: tl ∧ isSpace c = false := by
  obtain ⟨body, rfl, -⟩ := h
  exact ⟨'[', body ++ [']'], rfl, by decide⟩

theorem isBracketToken_last {t : Str} (h : IsBracketToken t) :
    ∃ (init : Str) (c : Char), t = init ++ [c] ∧ isSpace c = false := by
  obtain ⟨body, rfl, -⟩ := h
  exact ⟨'[' :: body, ']', by simp, by decide⟩

theorem isFirstToken_of_checks {s pre tok post : Str} (hs : s = pre ++ tok ++ post)
    (ht : IsBracketToken tok) (hno : ∀ k, k < pre.length → matchAtStart (s.drop k) = none) :
    IsFirstToken s pre tok post := by
  refine ⟨hs, ht, ?_⟩
  intro pre2 t2 post2 hs2 ht2
  by_contra hlt
  have hk := hno pre2.length (by omega)
  have hd : s.drop pre2.length = t2 ++ post2 := by
    rw [hs2, List.append_assoc, List.drop_left]
  rw [hd, matchAtStart_token_append post2 ht2] at hk
  exact Option.noConfusion hk

theorem isFirstToken_pre_nil {s pre tok post : Str} (h : IsFirstToken s pre tok post)
    (hp : tok <+: s) : pre = [] := by
  obtain ⟨rest, hrest⟩ := hp
  have := h.2.2 [] tok rest (by simp [hrest]) h.2.1
  exact List.length_eq_zero.1 (by simpa using this)

/-- C1: for a path of the form `[ds] rest`, where `ds` holds no square
bracket, the parse succeeds; the datastore name is the last `/`-separated
segment of `ds` (it holds no `/`, and `ds` is that segment alone or ends in `/`
followed by it); the disk path is `rest` with the white space on both sides
removed (what was removed is white space only, and the result neither starts
nor ends with white space). -/
theorem parse_bracketed_path (ds rest : Str) (hds : ∀ c ∈ ds, c ≠ '[' ∧ c ≠ ']') :
    ∃ name path : Str,
      parseVolumePath ("[".toList ++ ds ++ "] ".toList ++ rest) = some ⟨name, path⟩
      ∧ name = lastSegment ds ∧ '/' ∉ name
      ∧ (ds = name ∨ ∃ pre : Str, ds = pre ++ '/' :: name)
      ∧ path = TrimSpace rest
      ∧ ∃ l r : Str, rest = l ++ path ++ r ∧ (∀ c ∈ l, isSpace c = true)
          ∧ (∀ c ∈ r, isSpace c = true) ∧ (∀ c ∈ path.head?, isSpace c = false)
          ∧ (∀ c ∈ path.getLast?, isSpace c = false) := by
  have htok : IsBracketToken ('[' :: (ds ++ [']'])) := ⟨ds, rfl, hds⟩
  have hpath : "[".toList ++ ds ++ "] ".toList ++ rest
      = ('[' :: (ds ++ [']'])) ++ (' ' :: rest) := by
    show ['['] ++ ds ++ [']', ' '] ++ rest = _
    simp
  have hfind := findFirst_token_append (' ' :: rest) htok
  refine ⟨lastSegment ds, TrimSpace rest, ?_, rfl, (lastSegment_spec ds).1,
    (lastSegment_spec ds).2, rfl, TrimSpace_spec rest⟩
  rw [hpath, parseVolumePath_of_findFirst hfind, Trim_token ds hds, TrimPrefix_append,
    TrimSpace_cons_space ' ' rest (by decide)]

theorem parse_bracketed_path_witness :
    (∀ c ∈ "folder/datastore2".toList, c ≠ '[' ∧ c ≠ ']') ∧
    ∃ name path : Str,
      parseVolumePath ("[".toList ++ "folder/datastore2".toList ++ "] ".toList
        ++ "a/b.vmdk".toList) = some ⟨name, path⟩
      ∧ name = lastSegment "folder/datastore2".toList ∧ '/' ∉ name
      ∧ ("folder/datastore2".toList = name
          ∨ ∃ pre : Str, "folder/datastore2".toList = pre ++ '/' :: name)
      ∧ path = TrimSpace "a/b.vmdk".toList
      ∧ ∃ l r : Str, "a/b.vmdk".toList = l ++ path ++ r ∧ (∀ c ∈ l, isSpace c = true)
          ∧ (∀ c ∈ r, isSpace c = true) ∧ (∀ c ∈ path.head?, isSpace c = false)
          ∧ (∀ c ∈ path.getLast?, isSpace c = false) :=
  ⟨by decide, parse_bracketed_path "folder/datastore2".toList "a/b.vmdk".toList (by decide)⟩

/-- The two examples of the path parser evaluate as the specification says. -/
theorem parse_examples :
    parseVolumePath "[datastore1] disks/vol1.vmdk".toList
      = some ⟨"datastore1".toList, "disks/vol1.vmdk".toList⟩
    ∧ parseVolumePath "[folder/datastore2] a/b.vmdk".toList
      = some ⟨"datastore2".toList, "a/b.vmdk".toList⟩
    ∧ parseVolumePath "disks/vol1.vmdk".toList = none := by
  decide

/-- C10, as the code has it: the first bracket token `[body]` of the path gives
the datastore name, the last segment of `body`.  When the path starts with that
token the disk path is the rest of the path, trimmed.  When the token stands
further right it is not removed: the disk path is the whole path, trimmed, and
still contains the token. -/
theorem first_token_parse (s pre tok post : Str) (h : IsFirstToken s pre tok post) :
    ∃ (body : Str) (parsed : ParsedPath),
      tok = '[' :: (body ++ [']']) ∧ parseVolumePath s = some parsed
      ∧ parsed.datastoreName = lastSegment body
      ∧ (pre = [] → parsed.vmdkPath = TrimSpace post)
      ∧ (pre ≠ [] → parsed.vmdkPath = TrimSpace s ∧ tok <:+: parsed.vmdkPath) := by
  have hfind := findFirst_of_isFirstToken h
  obtain ⟨hs, htok, hleft⟩ := h
  obtain ⟨body, hbody, hb⟩ := htok
  refine ⟨body, _, hbody, parseVolumePath_of_findFirst hfind, ?_, ?_, ?_⟩
  · show lastSegment (Trim (Trim tok ['[']) [']']) = lastSegment body
    rw [hbody, Trim_token body hb]
  · intro hpre
    show TrimSpace (TrimPrefix s tok) = TrimSpace post
    rw [hs, hpre, List.nil_append, TrimPrefix_append]
  · intro hpre
    have hnp : ¬ tok <+: s := fun hp =>
      hpre (isFirstToken_pre_nil ⟨hs, ⟨body, hbody, hb⟩, hleft⟩ hp)
    have hv : TrimSpace (TrimPrefix s tok) = TrimSpace s := by
      rw [TrimPrefix_unchanged s tok hnp]
    refine ⟨hv, ?_⟩
    show tok <:+: TrimSpace (TrimPrefix s tok)
    rw [hv]
    exact infix_TrimSpace ⟨pre, post, hs.symm⟩ (isBracketToken_head ⟨body, hbody, hb⟩)
      (isBracketToken_last ⟨body, hbody, hb⟩)

theorem first_token_parse_witness :
    IsFirstToken " [ds1] a.vmdk".toList " ".toList "[ds1]".toList " a.vmdk".toList ∧
    ∃ (body : Str) (parsed : ParsedPath),
      "[ds1]".toList = '[' :: (body ++ [']']) ∧ parseVolumePath " [ds1] a.vmdk".toList = some parsed
      ∧ parsed.datastoreName = lastSegment body
      ∧ (" ".toList = [] → parsed.vmdkPath = TrimSpace " a.vmdk".toList)
      ∧ (" ".toList ≠ [] → parsed.vmdkPath = TrimSpace " [ds1] a.vmdk".toList
          ∧ "[ds1]".toList <:+: parsed.vmdkPath) :=
  have h : IsFirstToken " [ds1] a.vmdk".toList " ".toList "[ds1]".toList " a.vmdk".toList :=
    isFirstToken_of_checks (by decide) ⟨"ds1".toList, by decide, by decide⟩ (by decide)
  ⟨h, first_token_parse _ _ _ _ h⟩

/-- C10 as stated fails: in `[a[b]] x` the first bracket token is `[b]`; the
parsed disk path is the whole path, not the path with the token removed, and
it still contains the token. -/
theorem first_token_not_removed :
    IsFirstToken "[a[b]] x".toList "[a".toList "[b]".toList "] x".toList
    ∧ parseVolumePath "[a[b]] x".toList = some ⟨"b".toList, "[a[b]] x".toList⟩
    ∧ "[a[b]] x".toList ≠ TrimSpace ("[a".toList ++ "] x".toList)
    ∧ "[b]".toList <:+: "[a[b]] x".toList :=
  ⟨isFirstToken_of_checks (by decide) ⟨"b".toList, by decide, by decide⟩ (by decide),
    by decide, by decide, ⟨"[a".toList, "] x".toList, by decide⟩⟩

/-! ## The steps before the datacenter loop -/

theorem writeCsiConfig_local (w : World) (data : Str → Option Str) :
    ∀ e ∈ (writeCsiConfig w data).2, e.isBackend = false := by
  intro e he
  unfold writeCsiConfig at he
  repeat' split at he
  all_goals simp [Event.isBackend] at he ⊢
  all_goals simp [he, Event.isBackend]

theorem writeCsiConfig_local_of_eq {w : World} {data : Str → Option Str} {o : Option Err}
    {tr : List Event} (h : writeCsiConfig w data = (o, tr)) :
    ∀ e ∈ tr, e.isBackend = false := by
  have := writeCsiConfig_local w data
  rw [h] at this
  exact this

theorem readClusterObjects_local (w : World) :
    ∀ e ∈ (readClusterObjects w).2, e.isBackend = false := by
  intro e he
  unfold readClusterObjects at he
  repeat' split at he
  all_goals simp only [List.not_mem_nil, List.mem_append, List.mem_singleton] at he
  all_goals
    first
    | exact absurd he id
    | exact writeCsiConfig_local_of_eq ‹writeCsiConfig _ _ = _› e he
    | (rcases he with he | he
       · exact writeCsiConfig_local_of_eq ‹writeCsiConfig _ _ = _› e he
       · simp [he, Event.isBackend])

theorem loginToVCenter_local (w : World) (csi : VsphereCSIDebugger) :
    ∀ e ∈ (loginToVCenter w csi).trace, e.isBackend = false := by
  intro e he
  have hr := readClusterObjects_local w
  unfold loginToVCenter at he
  split at he
  · rename_i e1 tr heq
    rw [heq] at hr
    exact hr e he
  · rename_i config secret tr heq
    rw [heq] at hr
    simp only at he
    repeat' split at he
    all_goals simp only [List.mem_append, List.mem_singleton] at he
    · exact hr e he
    · rcases he with he | he
      · exact hr e he
      · simp [he, Event.isBackend]
    · rcases he with (he | he) | he
      · exact hr e he
      · simp [he, Event.isBackend]
      · simp [he, Event.isBackend]

/-- After a successful login the field `config` of the debugger is set. -/
theorem loginToVCenter_config {w : World} {csi : VsphereCSIDebugger}
    (h : (loginToVCenter w csi).value = none) :
    ∃ config : VSphereConfig, (loginToVCenter w csi).csi.config = some config := by
  unfold loginToVCenter at h ⊢
  split at h
  · simp at h
  · simp only at h ⊢
    repeat' split at h
    all_goals simp at h
    all_goals simp_all

/-- C2: when the volume path of the persistent volume holds no bracket token,
`RegisterCNSDisk` returns an error, reports no volume record, and no call to
vCenter is made (no connection, no manager, no datacenter listing, no disk
registration, no volume creation); when login and UUID generation succeed the
error is the one of line 178. -/
theorem no_token_fails_before_backend (w : World) (csi : VsphereCSIDebugger)
    (pvName volumePath : Str) (hpv : getVolumePath w pvName = .ok volumePath)
    (hno : ¬ HasBracketToken volumePath) :
    (RegisterCNSDisk w csi pvName).err.isSome = true
    ∧ (RegisterCNSDisk w csi pvName).volumeInfo = none
    ∧ (∀ e ∈ (RegisterCNSDisk w csi pvName).trace, e.isBackend = false)
    ∧ ((loginToVCenter w csi).value = none → (∃ uuid, w.newUUID = .ok uuid) →
        (RegisterCNSDisk w csi pvName).err =
          some ("failed to extract datastore name from in-tree volume path: ".toList
            ++ Quote w.printTable volumePath)) := by
  have hparse : parseVolumePath volumePath = none := (parseVolumePath_eq_none_iff _).2 hno
  have hlocal := loginToVCenter_local w csi
  unfold RegisterCNSDisk beforeLoop
  cases hl : (loginToVCenter w csi).value with
  | some e => simp [hl]; exact hlocal
  | none =>
    cases hu : w.newUUID with
    | error e => simp [hl, hu]; exact hlocal
    | ok uuid => simp [hl, hu, hpv, hparse]; exact hlocal


theorem no_token_fails_before_backend_witness :
    getVolumePath noBracketWorld "pv-1".toList = .ok "disks/vol1.vmdk".toList
    ∧ ¬ HasBracketToken "disks/vol1.vmdk".toList
    ∧ (RegisterCNSDisk noBracketWorld NewVSphereCSIDebugger "pv-1".toList).err.isSome = true
    ∧ (RegisterCNSDisk noBracketWorld NewVSphereCSIDebugger "pv-1".toList).volumeInfo = none
    ∧ (∀ e ∈ (RegisterCNSDisk noBracketWorld NewVSphereCSIDebugger "pv-1".toList).trace,
        e.isBackend = false)
    ∧ ((loginToVCenter noBracketWorld NewVSphereCSIDebugger).value = none →
        (∃ uuid, noBracketWorld.newUUID = .ok uuid) →
        (RegisterCNSDisk noBracketWorld NewVSphereCSIDebugger "pv-1".toList).err =
          some ("failed to extract datastore name from in-tree volume path: ".toList
            ++ Quote noBracketWorld.printTable "disks/vol1.vmdk".toList)) :=
  have hno : ¬ HasBracketToken "disks/vol1.vmdk".toList :=
    (findFirst_eq_none_iff _).1 (by decide)
  ⟨rfl, hno,
    no_token_fails_before_backend noBracketWorld NewVSphereCSIDebugger "pv-1".toList
      "disks/vol1.vmdk".toList rfl hno⟩

theorem GetVirtualCenter_trace (w : World) (csi : VsphereCSIDebugger) :
    ∀ e ∈ (GetVirtualCenter w csi).trace, e = Event.connectVCenter := by
  intro e he
  unfold GetVirtualCenter at he
  repeat' split at he
  all_goals simp at he
  all_goals exact he

theorem datacenterPaths_trace (w : World) (datacenters : Str) :
    ∀ e ∈ (datacenterPaths w datacenters).2, e = Event.getDatacenters := by
  intro e he
  unfold datacenterPaths at he
  repeat' split at he
  all_goals simp at he
  all_goals exact he

theorem connectAndList_inr {w : World} {csi : VsphereCSIDebugger} {tr : List Event}
    {config : VSphereConfig} {uuid volumePath : Str} {parsed : ParsedPath} {inp : LoopInput}
    (h : connectAndList w csi tr config uuid volumePath parsed = .inr inp) :
    (∃ tr2, datacenterPaths w config.datacenter = (.ok inp.datacenterPaths, tr2))
    ∧ inp.env = ⟨volumePath, parsed.vmdkPath, parsed.datastoreName, config.vCenterIP⟩
    ∧ inp.createSpec = initialCreateSpec uuid config.globalUser
    ∧ ∀ e ∈ inp.trace, e ∈ tr ∨ e = Event.connectVCenter ∨ e = Event.getManager
        ∨ e = Event.getDatacenters := by
  unfold connectAndList at h
  simp only at h
  split at h
  · exact Sum.noConfusion h
  · split at h
    · exact Sum.noConfusion h
    · split at h
      · exact Sum.noConfusion h
      · rename_i paths tr2 heq
        simp only [Sum.inr.injEq] at h
        subst h
        refine ⟨⟨tr2, heq⟩, rfl, rfl, ?_⟩
        intro e he
        simp only [List.mem_append, List.mem_singleton] at he
        rcases he with ((he | he) | he) | he
        · exact Or.inl he
        · exact Or.inr (Or.inl (GetVirtualCenter_trace w csi e he))
        · exact Or.inr (Or.inr (Or.inl he))
        · have := datacenterPaths_trace w config.datacenter e
          rw [heq] at this
          exact Or.inr (Or.inr (Or.inr (this he)))

/-- What is known when the run reaches the datacenter loop. -/
theorem beforeLoop_inr {w : World} {csi : VsphereCSIDebugger} {pvName : Str} {inp : LoopInput}
    (h : beforeLoop w csi pvName = .inr inp) :
    ∃ (config : VSphereConfig) (uuid volumePath : Str) (parsed : ParsedPath),
      (loginToVCenter w csi).value = none
      ∧ (loginToVCenter w csi).csi.config = some config
      ∧ w.newUUID = .ok uuid
      ∧ getVolumePath w pvName = .ok volumePath
      ∧ parseVolumePath volumePath = some parsed
      ∧ (∃ tr2, datacenterPaths w config.datacenter = (.ok inp.datacenterPaths, tr2))
      ∧ inp.env = ⟨volumePath, parsed.vmdkPath, parsed.datastoreName, config.vCenterIP⟩
      ∧ inp.createSpec = initialCreateSpec uuid config.globalUser
      ∧ (∀ path name, Event.registerDisk path name ∉ inp.trace)
      ∧ (∀ spec, Event.createVolume spec ∉ inp.trace) := by
  have hlocal := loginToVCenter_local w csi
  unfold beforeLoop at h
  simp only at h
  split at h
  · exact Sum.noConfusion h
  · rename_i hlogin
    split at h
    · exact Sum.noConfusion h
    · rename_i uuid huuid
      split at h
      · exact Sum.noConfusion h
      · rename_i volumePath hvp
        split at h
        · exact Sum.noConfusion h
        · rename_i parsed hparsed
          split at h
          · exact Sum.noConfusion h
          · rename_i config hconfig
            obtain ⟨hd, henv, hspec, htr⟩ := connectAndList_inr h
            refine ⟨config, uuid, volumePath, parsed, hlogin, hconfig, huuid, hvp, hparsed, hd,
              henv, hspec, ?_, ?_⟩
            · intro path name hmem
              rcases htr _ hmem with h1 | h1 | h1 | h1
              · have := hlocal _ h1
                simp [Event.isBackend] at this
              · exact Event.noConfusion h1
              · exact Event.noConfusion h1
              · exact Event.noConfusion h1
            · intro spec hmem
              rcases htr _ hmem with h1 | h1 | h1 | h1
              · have := hlocal _ h1
                simp [Event.isBackend] at this
              · exact Event.noConfusion h1
              · exact Event.noConfusion h1
              · exact Event.noConfusion h1

/-! ## The datacenter loop -/

theorem datacenterLoop_cons (w : World) (env : LoopEnv) (i : Nat) (datacenter : Str)
    (rest : List Str) (createSpec : CreateSpec) (volumeInfo : Option VolumeInfo) :
    datacenterLoop w env i (datacenter :: rest) createSpec volumeInfo =
      match registrationStep w env i datacenter with
      | (.error e, tr) => ⟨some e, volumeInfo, tr⟩
      | (.ok details, tr) =>
        if (w.createVolume i
            { createSpec with backingObjectDetails := some details }).err.isSome then
          { datacenterLoop w env (i + 1) rest
              { createSpec with backingObjectDetails := some details }
              (w.createVolume i
                { createSpec with backingObjectDetails := some details }).volumeInfo with
            trace := tr ++ Event.createVolume
                { createSpec with backingObjectDetails := some details }
              :: (datacenterLoop w env (i + 1) rest
                  { createSpec with backingObjectDetails := some details }
                  (w.createVolume i
                    { createSpec with backingObjectDetails := some details }).volumeInfo).trace }
        else ⟨none, (w.createVolume i
            { createSpec with backingObjectDetails := some details }).volumeInfo,
          tr ++ [Event.createVolume { createSpec with backingObjectDetails := some details }]⟩ :=
  rfl

theorem attemptSpec_attemptSpec (inp : LoopInput) (d1 d2 : BackingDetails) :
    { attemptSpec inp d1 with backingObjectDetails := some d2 } = attemptSpec inp d2 := rfl

/-- One turn of the loop on the candidate at position `k`. -/
theorem datacenterLoop_drop (w : World) (inp : LoopInput) (k : Nat) (spec : CreateSpec)
    (vi : Option VolumeInfo) (hk : k < inp.datacenterPaths.length)
    (hspec : ∀ det, { spec with backingObjectDetails := some det } = attemptSpec inp det) :
    datacenterLoop w inp.env k (inp.datacenterPaths.drop k) spec vi =
      match (attemptRegistration w inp k).1 with
      | .error e => ⟨some e, vi, (attemptRegistration w inp k).2⟩
      | .ok det =>
        if (w.createVolume k (attemptSpec inp det)).err.isSome then
          { datacenterLoop w inp.env (k + 1) (inp.datacenterPaths.drop (k + 1))
              (attemptSpec inp det) (w.createVolume k (attemptSpec inp det)).volumeInfo with
            trace := (attemptRegistration w inp k).2 ++ Event.createVolume (attemptSpec inp det)
              :: (datacenterLoop w inp.env (k + 1) (inp.datacenterPaths.drop (k + 1))
                  (attemptSpec inp det)
                  (w.createVolume k (attemptSpec inp det)).volumeInfo).trace }
        else ⟨none, (w.createVolume k (attemptSpec inp det)).volumeInfo,
          (attemptRegistration w inp k).2 ++ [Event.createVolume (attemptSpec inp det)]⟩ := by
  rw [List.drop_eq_getElem_cons hk]
  simp only [datacenterLoop, attemptRegistration, List.getD_eq_getElem _ _ hk]
  rcases hreg : registrationStep w inp.env k inp.datacenterPaths[k] with ⟨r, tr⟩
  cases r with
  | error e => rfl
  | ok det => simp only [hspec]

/-- The loop from position `k` on, when creation fails up to position `n`
(exclusive) and succeeds at `n`. -/
theorem datacenterLoop_until_success (w : World) (inp : LoopInput) (record : VolumeInfo)
    (n : Nat) (hn : n < inp.datacenterPaths.length)
    (hfail : ∀ i, i < n → AttemptCreationFails w inp i)
    (hsucc : AttemptSucceeds w inp n record) :
    ∀ (d k : Nat), k + d = n → ∀ (spec : CreateSpec) (vi : Option VolumeInfo),
      (∀ det, { spec with backingObjectDetails := some det } = attemptSpec inp det) →
      datacenterLoop w inp.env k (inp.datacenterPaths.drop k) spec vi =
        ⟨none, some record, (List.range' k (d + 1)).flatMap (attemptEvents w inp)⟩ := by
  intro d
  induction d with
  | zero =>
    intro k hk spec vi hspec
    have hkn : k = n := by omega
    subst hkn
    obtain ⟨det, hreg, hcreate⟩ := hsucc
    rw [datacenterLoop_drop w inp k spec vi hn hspec]
    simp [hreg, hcreate, attemptEvents]
  | succ d ih =>
    intro k hk spec vi hspec
    have hkn : k < n := by omega
    obtain ⟨det, hreg, hcreate⟩ := hfail k hkn
    rw [datacenterLoop_drop w inp k spec vi (by omega) hspec]
    have hnext := ih (k + 1) (by omega) (attemptSpec inp det)
      (w.createVolume k (attemptSpec inp det)).volumeInfo (attemptSpec_attemptSpec inp det)
    simp only [hreg, hcreate, if_true, hnext]
    rw [List.range'_succ k (d + 1)]
    simp [attemptEvents, hreg]

theorem RegisterCNSDisk_of_inr {w : World} {csi : VsphereCSIDebugger} {pvName : Str}
    {inp : LoopInput} (h : beforeLoop w csi pvName = .inr inp) :
    RegisterCNSDisk w csi pvName =
      afterLoop inp (datacenterLoop w inp.env 0 inp.datacenterPaths inp.createSpec none) := by
  simp only [RegisterCNSDisk, h]

/-- C3: when the run reaches the loop and, among the first `n` candidates
(`n` at least 1), volume creation fails for the first `n - 1` and succeeds for
the `n`-th with the record `record`, the registration part (capability check,
then `RegisterDisk` or the URL fallback) succeeding in each of these attempts,
then `RegisterCNSDisk` returns nil with that record, and the calls made in the
loop are those of the attempts on the candidates at positions `0` to `n - 1`,
in this order, and nothing after them. -/
theorem first_success_stops_loop (w : World) (csi : VsphereCSIDebugger) (pvName : Str)
    (inp : LoopInput) (record : VolumeInfo) (n : Nat)
    (hrun : beforeLoop w csi pvName = .inr inp)
    (hn : 0 < n) (hlen : n ≤ inp.datacenterPaths.length)
    (hfail : ∀ i, i < n - 1 → AttemptCreationFails w inp i)
    (hsucc : AttemptSucceeds w inp (n - 1) record) :
    (RegisterCNSDisk w csi pvName).err = none
    ∧ (RegisterCNSDisk w csi pvName).volumeInfo = some record
    ∧ (RegisterCNSDisk w csi pvName).trace
        = inp.trace ++ (List.range n).flatMap (attemptEvents w inp) := by
  have hloop := datacenterLoop_until_success w inp record (n - 1) (by omega) hfail hsucc
    (n - 1) 0 (by omega) inp.createSpec none (fun _ => rfl)
  rw [List.drop_zero, show n - 1 + 1 = n by omega, ← List.range_eq_range'] at hloop
  rw [RegisterCNSDisk_of_inr hrun, hloop]
  simp [afterLoop]

theorem first_success_stops_loop_witness :
    beforeLoop sampleWorld NewVSphereCSIDebugger "pv-1".toList = .inr sampleInput
    ∧ 0 < 2 ∧ 2 ≤ sampleInput.datacenterPaths.length
    ∧ (∀ i, i < 2 - 1 → AttemptCreationFails sampleWorld sampleInput i)
    ∧ AttemptSucceeds sampleWorld sampleInput (2 - 1) ⟨"vol-1".toList⟩
    ∧ (RegisterCNSDisk sampleWorld NewVSphereCSIDebugger "pv-1".toList).err = none
    ∧ (RegisterCNSDisk sampleWorld NewVSphereCSIDebugger "pv-1".toList).volumeInfo
        = some ⟨"vol-1".toList⟩
    ∧ (RegisterCNSDisk sampleWorld NewVSphereCSIDebugger "pv-1".toList).trace
        = sampleInput.trace ++ (List.range 2).flatMap (attemptEvents sampleWorld sampleInput) :=
  have h1 : beforeLoop sampleWorld NewVSphereCSIDebugger "pv-1".toList = .inr sampleInput := by
    decide
  have h2 : 2 ≤ sampleInput.datacenterPaths.length := by decide
  have h3 : ∀ i, i < 2 - 1 → AttemptCreationFails sampleWorld sampleInput i := by
    intro i hi
    have : i = 0 := by omega
    subst this
    exact ⟨BackingDetails.diskId "fcd-1".toList,
      rfl, by decide⟩
  have h4 : AttemptSucceeds sampleWorld sampleInput (2 - 1) ⟨"vol-1".toList⟩ :=
    ⟨BackingDetails.diskId "fcd-1".toList,
      rfl, by decide⟩
  ⟨h1, by decide, h2, h3, h4,
    first_success_stops_loop sampleWorld NewVSphereCSIDebugger "pv-1".toList sampleInput
      ⟨"vol-1".toList⟩ 2 h1 (by decide) h2 h3 h4⟩

/-- The URL of the attempt on the first candidate. -/
theorem registrationStep_of_registerDisk_error {w : World} {env : LoopEnv} {i : Nat}
    (datacenter : Str) (hvslm : w.useVslmAPIs i = .ok true)
    (hfail : (RegisterDisk w i
      (backingDiskURLPath env.host env.vmdkPath datacenter env.datastoreName)
      env.volumePath).1.2.isSome = true) :
    registrationStep w env i datacenter =
      (.error ("registration failed for volumePath: ".toList ++ env.volumePath),
        (RegisterDisk w i (backingDiskURLPath env.host env.vmdkPath datacenter env.datastoreName)
          env.volumePath).2) := by
  unfold registrationStep
  simp only [hvslm, if_true]
  rcases hr : RegisterDisk w i
    (backingDiskURLPath env.host env.vmdkPath datacenter env.datastoreName)
    env.volumePath with ⟨⟨id, err⟩, tr⟩
  rw [hr] at hfail
  cases err with
  | none => simp at hfail
  | some e => rfl

/-- The loop from position `j` on, when creation fails up to position `k`
(exclusive) and the registration part fails at `k`. -/
theorem datacenterLoop_until_registration_error (w : World) (inp : LoopInput) (e : Err)
    (k : Nat) (hk : k < inp.datacenterPaths.length)
    (hprev : ∀ i, i < k → AttemptCreationFails w inp i)
    (hreg : (attemptRegistration w inp k).1 = .error e) :
    ∀ (d j : Nat), j + d = k → ∀ (spec : CreateSpec) (vi : Option VolumeInfo),
      (∀ det, { spec with backingObjectDetails := some det } = attemptSpec inp det) →
      (datacenterLoop w inp.env j (inp.datacenterPaths.drop j) spec vi).err = some e
      ∧ (datacenterLoop w inp.env j (inp.datacenterPaths.drop j) spec vi).trace
          = (List.range' j d).flatMap (attemptEvents w inp) ++ (attemptRegistration w inp k).2 := by
  intro d
  induction d with
  | zero =>
    intro j hj spec vi hspec
    have hjk : j = k := by omega
    subst hjk
    rw [datacenterLoop_drop w inp j spec vi hk hspec]
    simp [hreg]
  | succ d ih =>
    intro j hj spec vi hspec
    have hjk : j < k := by omega
    obtain ⟨det, hok, hcreate⟩ := hprev j hjk
    rw [datacenterLoop_drop w inp j spec vi (by omega) hspec]
    obtain ⟨h1, h2⟩ := ih (j + 1) (by omega) (attemptSpec inp det)
      (w.createVolume j (attemptSpec inp det)).volumeInfo (attemptSpec_attemptSpec inp det)
    simp only [hok, hcreate, if_true, h1, h2]
    rw [List.range'_succ j d]
    simp [attemptEvents, hok]

/-- C4, as the code has it: a `RegisterDisk` failure at any position of the
loop aborts the run.  When the run reaches the loop, volume creation fails for
every candidate before position `k` (the registration part succeeding), the
capability check selects the VSLM API at position `k` and `RegisterDisk` fails
for the candidate at position `k`, then `RegisterCNSDisk` returns the error of
line 251 and reports no volume record; the calls made in the loop are those of
the attempts at positions `0` to `k - 1`, then those of the failed
`RegisterDisk`, and none for any later candidate, whatever its outcome would
be. -/
theorem registerDisk_failure_aborts (w : World) (csi : VsphereCSIDebugger) (pvName : Str)
    (inp : LoopInput) (k : Nat) (hrun : beforeLoop w csi pvName = .inr inp)
    (hk : k < inp.datacenterPaths.length)
    (hprev : ∀ i, i < k → AttemptCreationFails w inp i)
    (hvslm : w.useVslmAPIs k = .ok true)
    (hfail : (RegisterDisk w k
      (backingDiskURLPath inp.env.host inp.env.vmdkPath (inp.datacenterPaths.getD k [])
        inp.env.datastoreName) inp.env.volumePath).1.2.isSome = true) :
    (RegisterCNSDisk w csi pvName).err
        = some ("registration failed for volumePath: ".toList ++ inp.env.volumePath)
    ∧ (RegisterCNSDisk w csi pvName).volumeInfo = none
    ∧ (RegisterCNSDisk w csi pvName).trace = inp.trace
        ++ (List.range k).flatMap (attemptEvents w inp)
        ++ (RegisterDisk w k
          (backingDiskURLPath inp.env.host inp.env.vmdkPath (inp.datacenterPaths.getD k [])
            inp.env.datastoreName) inp.env.volumePath).2 := by
  have hstep := registrationStep_of_registerDisk_error
    (inp.datacenterPaths.getD k []) hvslm hfail
  have hreg : (attemptRegistration w inp k).1
      = .error ("registration failed for volumePath: ".toList ++ inp.env.volumePath) := by
    simp only [attemptRegistration, hstep]
  have hreg2 : (attemptRegistration w inp k).2 = (RegisterDisk w k
      (backingDiskURLPath inp.env.host inp.env.vmdkPath (inp.datacenterPaths.getD k [])
        inp.env.datastoreName) inp.env.volumePath).2 := by
    simp only [attemptRegistration, hstep]
  obtain ⟨h1, h2⟩ := datacenterLoop_until_registration_error w inp _ k hk hprev hreg k 0
    (by omega) inp.createSpec none (fun _ => rfl)
  rw [List.drop_zero, ← List.range_eq_range', hreg2] at h2
  rw [List.drop_zero] at h1
  rw [RegisterCNSDisk_of_inr hrun]
  unfold afterLoop
  simp only [h1, h2, List.append_assoc]
  exact ⟨trivial, trivial, trivial⟩

theorem registerDisk_failure_aborts_witness :
    beforeLoop registerFailsLaterWorld NewVSphereCSIDebugger "pv-1".toList
      = .inr registerFailsLaterInput
    ∧ registerFailsLaterInput.datacenterPaths = ["DC0".toList, "DC1".toList, "DC2".toList]
    ∧ (∀ i, i < 1 → AttemptCreationFails registerFailsLaterWorld registerFailsLaterInput i)
    ∧ registerFailsLaterWorld.useVslmAPIs 1 = .ok true
    ∧ (RegisterCNSDisk registerFailsLaterWorld NewVSphereCSIDebugger "pv-1".toList).err
        = some ("registration failed for volumePath: ".toList
            ++ registerFailsLaterInput.env.volumePath)
    ∧ (RegisterCNSDisk registerFailsLaterWorld NewVSphereCSIDebugger "pv-1".toList).volumeInfo
        = none
    ∧ (RegisterCNSDisk registerFailsLaterWorld NewVSphereCSIDebugger "pv-1".toList).trace
        = registerFailsLaterInput.trace
          ++ (List.range 1).flatMap
              (attemptEvents registerFailsLaterWorld registerFailsLaterInput)
          ++ (RegisterDisk registerFailsLaterWorld 1
            (backingDiskURLPath registerFailsLaterInput.env.host
              registerFailsLaterInput.env.vmdkPath
              (registerFailsLaterInput.datacenterPaths.getD 1 [])
              registerFailsLaterInput.env.datastoreName)
            registerFailsLaterInput.env.volumePath).2 :=
  have h1 : beforeLoop registerFailsLaterWorld NewVSphereCSIDebugger "pv-1".toList
      = .inr registerFailsLaterInput := by decide
  have h2 : 1 < registerFailsLaterInput.datacenterPaths.length := by decide
  have h3 : ∀ i, i < 1 →
      AttemptCreationFails registerFailsLaterWorld registerFailsLaterInput i := by
    intro i hi
    have : i = 0 := by omega
    subst this
    exact ⟨BackingDetails.diskId "fcd-1".toList, rfl, by decide⟩
  ⟨h1, by decide, h3, rfl,
    registerDisk_failure_aborts registerFailsLaterWorld NewVSphereCSIDebugger "pv-1".toList
      registerFailsLaterInput 1 h1 h2 h3 rfl (by decide)⟩

/-- C4 as stated fails: with the candidates `DC0` and `DC1`, `RegisterDisk`
failing for the first and both disk registration and volume creation succeeding
for the second, `RegisterCNSDisk` returns an error and makes no call for the
second candidate. -/
theorem registerDisk_failure_not_skipped :
    registerFailsInput.datacenterPaths = ["DC0".toList, "DC1".toList]
    ∧ (RegisterDisk registerFailsWorld 0
        (backingDiskURLPath registerFailsInput.env.host registerFailsInput.env.vmdkPath
          "DC0".toList registerFailsInput.env.datastoreName)
        registerFailsInput.env.volumePath).1.2.isSome = true
    ∧ (RegisterDisk registerFailsWorld 1
        (backingDiskURLPath registerFailsInput.env.host registerFailsInput.env.vmdkPath
          "DC1".toList registerFailsInput.env.datastoreName)
        registerFailsInput.env.volumePath).1 = ("fcd-1".toList, none)
    ∧ registerFailsWorld.createVolume 1
        (attemptSpec registerFailsInput (.diskId "fcd-1".toList)) = ⟨some ⟨"vol-1".toList⟩, none⟩
    ∧ (RegisterCNSDisk registerFailsWorld NewVSphereCSIDebugger "pv-1".toList).err.isSome = true
    ∧ (RegisterCNSDisk registerFailsWorld NewVSphereCSIDebugger "pv-1".toList).trace =
        [ .writeFile csiConfigLocation "[Workspace]".toList,
          .setenv EnvVSphereCSIConfig csiConfigLocation,
          .setenv "VSPHERE_USER".toList "administrator".toList,
          .setenv "VSPHERE_PASSWORD".toList "secret".toList,
          .connectVCenter, .getManager, .connectVslm,
          .registerDisk
            "https://vcenter.example.com/folder/vols/pv-1.vmdk?dcPath=DC0&dsName=ds1".toList
            "[ds1] vols/pv-1.vmdk".toList ] := by
  decide

/-- An early return of `RegisterCNSDisk` is an error without volume record. -/
theorem beforeLoop_inl {w : World} {csi : VsphereCSIDebugger} {pvName : Str} {out : Outcome}
    (h : beforeLoop w csi pvName = .inl out) :
    out.err.isSome = true ∧ out.volumeInfo = none := by
  unfold beforeLoop connectAndList at h
  simp only at h
  repeat' split at h
  all_goals first
    | exact Sum.noConfusion h
    | (simp only [Sum.inl.injEq] at h; subst h; exact ⟨rfl, rfl⟩)

/-- The loop from position `k` on, entered without volume record, when no
attempt yields a volume record: it ends with an error or without volume
record. -/
theorem datacenterLoop_no_record (w : World) (inp : LoopInput)
    (hnone : ∀ i, i < inp.datacenterPaths.length → AttemptYieldsNoRecord w inp i) :
    ∀ (d k : Nat), k + d = inp.datacenterPaths.length → ∀ (spec : CreateSpec),
      (∀ det, { spec with backingObjectDetails := some det } = attemptSpec inp det) →
      (datacenterLoop w inp.env k (inp.datacenterPaths.drop k) spec none).err.isSome = true
      ∨ (datacenterLoop w inp.env k (inp.datacenterPaths.drop k) spec none).volumeInfo
          = none := by
  intro d
  induction d with
  | zero =>
    intro k hk spec _
    have : inp.datacenterPaths.drop k = [] := List.drop_eq_nil_of_le (by omega)
    rw [this]
    exact Or.inr rfl
  | succ d ih =>
    intro k hk spec hspec
    have hklt : k < inp.datacenterPaths.length := by omega
    have hf := hnone k hklt
    rw [datacenterLoop_drop w inp k spec none hklt hspec]
    unfold AttemptYieldsNoRecord at hf
    cases hreg : (attemptRegistration w inp k).1 with
    | error e => exact Or.inl rfl
    | ok det =>
      rw [hreg] at hf
      simp only at hf
      simp only [hf]
      split
      · exact ih (k + 1) (by omega) (attemptSpec inp det) (attemptSpec_attemptSpec inp det)
      · exact Or.inr rfl

/-- A volume record with which the loop from position `k` on ends without
error was passed in and the list was exhausted, or it was returned by the
volume creation call of an attempt at some position `j`, which every attempt
from `k` to `j` reached through creation failures, and which was the last call
of the loop: it returned no error, or `j` is the last position. -/
theorem datacenterLoop_record (w : World) (inp : LoopInput) (record : VolumeInfo) :
    ∀ (d k : Nat), k + d = inp.datacenterPaths.length →
      ∀ (spec : CreateSpec) (vi : Option VolumeInfo),
      (∀ det, { spec with backingObjectDetails := some det } = attemptSpec inp det) →
      (datacenterLoop w inp.env k (inp.datacenterPaths.drop k) spec vi).err = none →
      (datacenterLoop w inp.env k (inp.datacenterPaths.drop k) spec vi).volumeInfo
        = some record →
      (k = inp.datacenterPaths.length ∧ vi = some record)
      ∨ ∃ (j : Nat) (details : BackingDetails),
          k ≤ j ∧ j < inp.datacenterPaths.length
          ∧ (∀ i, k ≤ i → i < j → AttemptCreationFails w inp i)
          ∧ (attemptRegistration w inp j).1 = .ok details
          ∧ (w.createVolume j (attemptSpec inp details)).volumeInfo = some record
          ∧ ((w.createVolume j (attemptSpec inp details)).err = none
              ∨ j + 1 = inp.datacenterPaths.length)
          ∧ Event.createVolume (attemptSpec inp details)
              ∈ (datacenterLoop w inp.env k (inp.datacenterPaths.drop k) spec vi).trace := by
  intro d
  induction d with
  | zero =>
    intro k hk spec vi _
    have : inp.datacenterPaths.drop k = [] := List.drop_eq_nil_of_le (by omega)
    rw [this]
    intro _ hv
    exact Or.inl ⟨by omega, hv⟩
  | succ d ih =>
    intro k hk spec vi hspec
    have hklt : k < inp.datacenterPaths.length := by omega
    rw [datacenterLoop_drop w inp k spec vi hklt hspec]
    cases hreg : (attemptRegistration w inp k).1 with
    | error e => intro herr; exact absurd herr (by simp)
    | ok det =>
      simp only
      by_cases hc : (w.createVolume k (attemptSpec inp det)).err.isSome = true
      · simp only [hc, if_true]
        intro herr hv
        right
        rcases ih (k + 1) (by omega) (attemptSpec inp det) _ (attemptSpec_attemptSpec inp det)
          herr hv with ⟨hlast, hrec⟩ | ⟨j, details, hkj, hj, hprev, hok, hrec, hend, hmem⟩
        · exact ⟨k, det, le_refl k, hklt, fun i h1 h2 => absurd h2 (by omega), hreg, hrec,
            Or.inr hlast, by simp⟩
        · refine ⟨j, details, by omega, hj, ?_, hok, hrec, hend, by simp [hmem]⟩
          intro i h1 h2
          by_cases hik : i = k
          · subst hik
            exact ⟨det, hreg, hc⟩
          · exact hprev i (by omega) h2
      · simp only [hc]
        intro _ hv
        right
        refine ⟨k, det, le_refl k, hklt, fun i h1 h2 => absurd h2 (by omega), hreg, hv, ?_,
          by simp⟩
        left
        cases herr : (w.createVolume k (attemptSpec inp det)).err with
        | none => rfl
        | some e => rw [herr] at hc; exact absurd rfl hc

/-- C5, as the code has it: the verdict is taken from the volume record.  When
no attempt yields a volume record (its registration part fails, or its volume
creation returns no record), also when there is no candidate at all or the
loop is not reached, `RegisterCNSDisk` returns an error and reports no volume
record.  Whenever `RegisterCNSDisk` returns nil, the run reached the loop and
the record it reports was returned by the volume creation call of the attempt
at some position `j`, reached through creation failures of all earlier
attempts; that call was the last call of the run (it returned no error, or `j`
is the last position). -/
theorem no_record_no_success (w : World) (csi : VsphereCSIDebugger) (pvName : Str) :
    ((∀ inp, beforeLoop w csi pvName = .inr inp →
        ∀ i, i < inp.datacenterPaths.length → AttemptYieldsNoRecord w inp i) →
      (RegisterCNSDisk w csi pvName).err.isSome = true
        ∧ (RegisterCNSDisk w csi pvName).volumeInfo = none)
    ∧ ((RegisterCNSDisk w csi pvName).err = none →
        ∃ (inp : LoopInput) (record : VolumeInfo) (j : Nat) (details : BackingDetails),
          beforeLoop w csi pvName = .inr inp
          ∧ j < inp.datacenterPaths.length
          ∧ (∀ i, i < j → AttemptCreationFails w inp i)
          ∧ (attemptRegistration w inp j).1 = .ok details
          ∧ (w.createVolume j (attemptSpec inp details)).volumeInfo = some record
          ∧ ((w.createVolume j (attemptSpec inp details)).err = none
              ∨ j + 1 = inp.datacenterPaths.length)
          ∧ Event.createVolume (attemptSpec inp details) ∈ (RegisterCNSDisk w csi pvName).trace
          ∧ (RegisterCNSDisk w csi pvName).volumeInfo = some record) := by
  cases hb : beforeLoop w csi pvName with
  | inl out =>
    have hout := beforeLoop_inl hb
    have hR : RegisterCNSDisk w csi pvName = out := by simp only [RegisterCNSDisk, hb]
    rw [hR]
    refine ⟨fun _ => hout, fun h => ?_⟩
    rw [h] at hout
    exact absurd hout.1 (by simp)
  | inr inp =>
    rw [RegisterCNSDisk_of_inr hb]
    constructor
    · intro hnone
      have hl := datacenterLoop_no_record w inp (hnone inp rfl) inp.datacenterPaths.length 0
        (by omega) inp.createSpec (fun _ => rfl)
      rw [List.drop_zero] at hl
      unfold afterLoop
      cases herr : (datacenterLoop w inp.env 0 inp.datacenterPaths inp.createSpec none).err with
      | some e => exact ⟨rfl, rfl⟩
      | none =>
        rw [herr] at hl
        rcases hl with hl | hl
        · exact absurd hl (by simp)
        · simp [hl]
    · intro hnil
      have hrec := datacenterLoop_record w inp
      unfold afterLoop at hnil ⊢
      cases herr : (datacenterLoop w inp.env 0 inp.datacenterPaths inp.createSpec none).err with
      | some e => rw [herr] at hnil; exact absurd hnil (by simp)
      | none =>
        cases hv : (datacenterLoop w inp.env 0 inp.datacenterPaths inp.createSpec
            none).volumeInfo with
        | none => rw [herr, hv] at hnil; exact absurd hnil (by simp)
        | some record =>
          have hcases := hrec record inp.datacenterPaths.length 0 (by omega) inp.createSpec none
            (fun _ => rfl)
          rw [List.drop_zero] at hcases
          rcases hcases herr hv with ⟨-, h⟩ | ⟨j, details, -, hj, hprev, hok, hr, hend, hm⟩
          · exact absurd h (by simp)
          · exact ⟨inp, record, j, details, rfl, hj, fun i hi => hprev i (Nat.zero_le i) hi,
              hok, hr, hend, by simp [hm], rfl⟩

theorem no_record_no_success_witness :
    (∀ inp, beforeLoop allFailWorld NewVSphereCSIDebugger "pv-1".toList = .inr inp →
        ∀ i, i < inp.datacenterPaths.length → AttemptYieldsNoRecord allFailWorld inp i)
    ∧ (RegisterCNSDisk allFailWorld NewVSphereCSIDebugger "pv-1".toList).err.isSome = true
    ∧ (RegisterCNSDisk allFailWorld NewVSphereCSIDebugger "pv-1".toList).volumeInfo = none
    ∧ (RegisterCNSDisk sampleWorld NewVSphereCSIDebugger "pv-1".toList).err = none
    ∧ ∃ (inp : LoopInput) (record : VolumeInfo) (j : Nat) (details : BackingDetails),
        beforeLoop sampleWorld NewVSphereCSIDebugger "pv-1".toList = .inr inp
        ∧ j < inp.datacenterPaths.length
        ∧ (∀ i, i < j → AttemptCreationFails sampleWorld inp i)
        ∧ (attemptRegistration sampleWorld inp j).1 = .ok details
        ∧ (sampleWorld.createVolume j (attemptSpec inp details)).volumeInfo = some record
        ∧ ((sampleWorld.createVolume j (attemptSpec inp details)).err = none
            ∨ j + 1 = inp.datacenterPaths.length)
        ∧ Event.createVolume (attemptSpec inp details)
            ∈ (RegisterCNSDisk sampleWorld NewVSphereCSIDebugger "pv-1".toList).trace
        ∧ (RegisterCNSDisk sampleWorld NewVSphereCSIDebugger "pv-1".toList).volumeInfo
            = some record :=
  have h1 : beforeLoop allFailWorld NewVSphereCSIDebugger "pv-1".toList = .inr allFailInput := by
    decide
  have hlen : allFailInput.datacenterPaths.length = 2 := by decide
  have hyp : ∀ inp, beforeLoop allFailWorld NewVSphereCSIDebugger "pv-1".toList = .inr inp →
      ∀ i, i < inp.datacenterPaths.length → AttemptYieldsNoRecord allFailWorld inp i := by
    intro inp h i hi
    have hinp : inp = allFailInput := Sum.inr.inj (h.symm.trans h1)
    subst hinp
    rw [hlen] at hi
    have hreg : ∀ j, j < 2 → (attemptRegistration allFailWorld allFailInput j).1
        = .ok (.diskId "fcd-1".toList) := by
      intro j hj
      have : j = 0 ∨ j = 1 := by omega
      rcases this with rfl | rfl <;> rfl
    unfold AttemptYieldsNoRecord
    rw [hreg i hi]
    exact rfl
  have hnil : (RegisterCNSDisk sampleWorld NewVSphereCSIDebugger "pv-1".toList).err = none := by
    decide
  ⟨hyp, ((no_record_no_success allFailWorld NewVSphereCSIDebugger "pv-1".toList).1 hyp).1,
    ((no_record_no_success allFailWorld NewVSphereCSIDebugger "pv-1".toList).1 hyp).2, hnil,
    (no_record_no_success sampleWorld NewVSphereCSIDebugger "pv-1".toList).2 hnil⟩

/-- C5 as stated fails: in the run on `recordWithErrorWorld` the volume
creation of each of the two attempts returns an error, so every attempt fails,
and together with the error a volume record; `RegisterCNSDisk` returns nil and
reports that record, since the loop tests the error (lines 261-265) and the
verdict tests the record (lines 267-271). -/
theorem record_with_error_succeeds :
    recordWithErrorInput.datacenterPaths = ["DC0".toList, "DC1".toList]
    ∧ beforeLoop recordWithErrorWorld NewVSphereCSIDebugger "pv-1".toList
        = .inr recordWithErrorInput
    ∧ (attemptRegistration recordWithErrorWorld recordWithErrorInput 0).1
        = .ok (.diskId "fcd-1".toList)
    ∧ (recordWithErrorWorld.createVolume 0
        (attemptSpec recordWithErrorInput (.diskId "fcd-1".toList))).err
        = some "task failed".toList
    ∧ (attemptRegistration recordWithErrorWorld recordWithErrorInput 1).1
        = .ok (.diskId "fcd-1".toList)
    ∧ (recordWithErrorWorld.createVolume 1
        (attemptSpec recordWithErrorInput (.diskId "fcd-1".toList))).err
        = some "task failed".toList
    ∧ Event.createVolume (attemptSpec recordWithErrorInput (.diskId "fcd-1".toList))
        ∈ (RegisterCNSDisk recordWithErrorWorld NewVSphereCSIDebugger "pv-1".toList).trace
    ∧ (RegisterCNSDisk recordWithErrorWorld NewVSphereCSIDebugger "pv-1".toList).err = none
    ∧ (RegisterCNSDisk recordWithErrorWorld NewVSphereCSIDebugger "pv-1".toList).volumeInfo
        = some ⟨"vol-1".toList⟩ :=
  ⟨by decide, by decide, rfl, by decide, rfl, by decide, by decide, by decide, by decide⟩

/-! ## `RegisterDisk` -/

/-- C6: once `ConnectVslm` has succeeded, `RegisterDisk` returns the new
identifier and nil when the backend call succeeds, the identifier carried by
the error and nil when the backend call fails with an already-exists error,
and the empty identifier with the backend error itself for every other error;
so it returns an error exactly when the backend error is not an already-exists
error.  In each case both `ConnectVslm` and the backend registration were
called. -/
theorem registerDisk_results (w : World) (i : Nat) (path name : Str)
    (hconn : w.connectVslm i = none) :
    (∀ id, w.vslmRegisterDisk i path name = .ok id →
        (RegisterDisk w i path name).1 = (id, none))
    ∧ (∀ e, w.vslmRegisterDisk i path name = .error e → (w.isAlreadyExists e).1 = true →
        (RegisterDisk w i path name).1 = ((w.isAlreadyExists e).2, none))
    ∧ (∀ e, w.vslmRegisterDisk i path name = .error e → (w.isAlreadyExists e).1 = false →
        (RegisterDisk w i path name).1 = ([], some e))
    ∧ ((RegisterDisk w i path name).1.2.isSome = true ↔
        ∃ e, w.vslmRegisterDisk i path name = .error e ∧ (w.isAlreadyExists e).1 = false)
    ∧ (RegisterDisk w i path name).2 = [Event.connectVslm, Event.registerDisk path name] := by
  unfold RegisterDisk
  simp only [hconn]
  cases hreg : w.vslmRegisterDisk i path name with
  | ok id => simp
  | error e =>
    cases hae : (w.isAlreadyExists e).1 with
    | true => simp [hae]
    | false => simp [hae]

theorem registerDisk_results_witness :
    alreadyExistsWorld.connectVslm 0 = none
    ∧ RegisterDisk alreadyExistsWorld 0 "url".toList "name".toList
        = (("fcd-7".toList, none),
            [Event.connectVslm, Event.registerDisk "url".toList "name".toList])
    ∧ (∀ id, alreadyExistsWorld.vslmRegisterDisk 0 "url".toList "name".toList = .ok id →
        (RegisterDisk alreadyExistsWorld 0 "url".toList "name".toList).1 = (id, none))
    ∧ (∀ e, alreadyExistsWorld.vslmRegisterDisk 0 "url".toList "name".toList = .error e →
        (alreadyExistsWorld.isAlreadyExists e).1 = true →
        (RegisterDisk alreadyExistsWorld 0 "url".toList "name".toList).1
          = ((alreadyExistsWorld.isAlreadyExists e).2, none))
    ∧ (∀ e, alreadyExistsWorld.vslmRegisterDisk 0 "url".toList "name".toList = .error e →
        (alreadyExistsWorld.isAlreadyExists e).1 = false →
        (RegisterDisk alreadyExistsWorld 0 "url".toList "name".toList).1 = ([], some e))
    ∧ ((RegisterDisk alreadyExistsWorld 0 "url".toList "name".toList).1.2.isSome = true ↔
        ∃ e, alreadyExistsWorld.vslmRegisterDisk 0 "url".toList "name".toList = .error e
          ∧ (alreadyExistsWorld.isAlreadyExists e).1 = false)
    ∧ (RegisterDisk alreadyExistsWorld 0 "url".toList "name".toList).2
        = [Event.connectVslm, Event.registerDisk "url".toList "name".toList] :=
  ⟨rfl, by decide, registerDisk_results alreadyExistsWorld 0 "url".toList "name".toList rfl⟩

/-! ## The credentials of `loginToVCenter` -/

theorem IsPrint_ascii (table : Char → Bool) (c : Char) (h1 : 0x20 ≤ c.toNat)
    (h2 : c.toNat < 0x7F) : IsPrint table c = true := by
  unfold IsPrint
  simp only
  have h3 : c.toNat ≤ 0xFF := by omega
  simp [h3, h1, h2]

theorem escapedRune_plain {table : Char → Bool} {c : Char} (h : plainRune table c) :
    escapedRune table c = [c] := by
  obtain ⟨hp, hq, hb⟩ := h
  unfold escapedRune
  simp [hp, hq, hb]

theorem Quote_plain {table : Char → Bool} {s : Str} (h : ∀ c ∈ s, plainRune table c) :
    Quote table s = Char.ofNat 0x22 :: (s ++ [Char.ofNat 0x22]) := by
  have hflat : s.flatMap (escapedRune table) = s := by
    induction s with
    | nil => rfl
    | cons c cs ih =>
      rw [List.flatMap_cons, escapedRune_plain (h c (List.mem_cons_self _ _)),
        ih (fun x hx => h x (List.mem_cons_of_mem _ hx))]
      rfl
  unfold Quote
  rw [hflat]

theorem plainRune_ascii (table : Char → Bool) (c : Char) (h1 : 0x20 ≤ c.toNat)
    (h2 : c.toNat < 0x7F) (h3 : c.toNat ≠ 0x22) (h4 : c.toNat ≠ 0x5C) : plainRune table c :=
  ⟨IsPrint_ascii table c h1 h2, h3, h4⟩

theorem plainRune_suffix (table : Char → Bool) (suffix : Str)
    (h : ∀ c ∈ suffix, 0x20 ≤ c.toNat ∧ c.toNat < 0x7F ∧ c.toNat ≠ 0x22 ∧ c.toNat ≠ 0x5C)
    (host : Str) (hhost : ∀ c ∈ host, plainRune table c) :
    ∀ c ∈ host ++ suffix, plainRune table c := by
  intro c hc
  rcases List.mem_append.1 hc with hc | hc
  · exact hhost c hc
  · obtain ⟨h1, h2, h3, h4⟩ := h c hc
    exact plainRune_ascii table c h1 h2 h3 h4

theorem quote_infix_secretKeyNotFound (w : World) (key : Str) :
    Quote w.printTable key <:+: secretKeyNotFound w key :=
  ⟨"error parsing secret ".toList ++ Quote w.printTable cloudCredSecretName ++ ": key ".toList,
    " not found".toList, by simp [secretKeyNotFound]⟩

theorem key_infix_secretKeyNotFound (w : World) (key : Str)
    (h : ∀ c ∈ key, plainRune w.printTable c) : key <:+: secretKeyNotFound w key := by
  refine List.IsInfix.trans ?_ (quote_infix_secretKeyNotFound w key)
  rw [Quote_plain h]
  exact ⟨[Char.ofNat 0x22], [Char.ofNat 0x22], by simp⟩

/-- C7, as the code has it: when the cluster objects were read and the secret
has no key `<host>.username`, or has it and has no key `<host>.password`,
`loginToVCenter` fails with the error of line 111 or 119, whose message
contains the key as `%q` renders it, and the key itself whenever every rune of
the host is rendered by `%q` as itself; the debugger is left as it was, so no
configuration is stored on it. -/
theorem missing_secret_key (w : World) (csi : VsphereCSIDebugger) (config : VSphereConfig)
    (secret : Str → Option Str) (tr : List Event)
    (hread : readClusterObjects w = (.ok (config, secret), tr)) :
    (secret (config.vCenterIP ++ ".username".toList) = none →
      (loginToVCenter w csi).value
          = some (secretKeyNotFound w (config.vCenterIP ++ ".username".toList))
      ∧ Quote w.printTable (config.vCenterIP ++ ".username".toList)
          <:+: secretKeyNotFound w (config.vCenterIP ++ ".username".toList)
      ∧ ((∀ c ∈ config.vCenterIP, plainRune w.printTable c) →
          config.vCenterIP ++ ".username".toList
            <:+: secretKeyNotFound w (config.vCenterIP ++ ".username".toList))
      ∧ (loginToVCenter w csi).csi = csi)
    ∧ (secret (config.vCenterIP ++ ".username".toList) ≠ none →
      secret (config.vCenterIP ++ ".password".toList) = none →
      (loginToVCenter w csi).value
          = some (secretKeyNotFound w (config.vCenterIP ++ ".password".toList))
      ∧ Quote w.printTable (config.vCenterIP ++ ".password".toList)
          <:+: secretKeyNotFound w (config.vCenterIP ++ ".password".toList)
      ∧ ((∀ c ∈ config.vCenterIP, plainRune w.printTable c) →
          config.vCenterIP ++ ".password".toList
            <:+: secretKeyNotFound w (config.vCenterIP ++ ".password".toList))
      ∧ (loginToVCenter w csi).csi = csi) := by
  have hu : config.vCenterIP ++ ".".toList ++ "username".toList
      = config.vCenterIP ++ ".username".toList := by
    rw [List.append_assoc]; rfl
  have hp : config.vCenterIP ++ ".".toList ++ "password".toList
      = config.vCenterIP ++ ".password".toList := by
    rw [List.append_assoc]; rfl
  constructor
  · intro hnone
    refine ⟨?_, quote_infix_secretKeyNotFound w _, ?_, ?_⟩
    · simp only [loginToVCenter, hread, hu, hnone]
    · intro hplain
      exact key_infix_secretKeyNotFound w _
        (plainRune_suffix w.printTable ".username".toList (by decide) _ hplain)
    · simp only [loginToVCenter, hread, hu, hnone]
  · intro hsome hnone
    obtain ⟨username, husername⟩ := Option.ne_none_iff_exists'.1 hsome
    refine ⟨?_, quote_infix_secretKeyNotFound w _, ?_, ?_⟩
    · simp only [loginToVCenter, hread, hu, hp, husername, hnone]
    · intro hplain
      exact key_infix_secretKeyNotFound w _
        (plainRune_suffix w.printTable ".password".toList (by decide) _ hplain)
    · simp only [loginToVCenter, hread, hu, hp, husername, hnone]

theorem missing_secret_key_witness :
    readClusterObjects emptySecretWorld
        = (.ok (⟨[], "vcenter.example.com".toList, "DC0,DC1".toList⟩, fun _ => none),
            [Event.writeFile csiConfigLocation "[Workspace]".toList,
              Event.setenv EnvVSphereCSIConfig csiConfigLocation])
    ∧ (loginToVCenter emptySecretWorld NewVSphereCSIDebugger).value
        = some (secretKeyNotFound emptySecretWorld "vcenter.example.com.username".toList)
    ∧ "vcenter.example.com.username".toList
        <:+: secretKeyNotFound emptySecretWorld "vcenter.example.com.username".toList
    ∧ (loginToVCenter emptySecretWorld NewVSphereCSIDebugger).csi = NewVSphereCSIDebugger
    ∧ (loginToVCenter emptySecretWorld NewVSphereCSIDebugger).csi.config = none :=
  have hread : readClusterObjects emptySecretWorld
      = (.ok (⟨[], "vcenter.example.com".toList, "DC0,DC1".toList⟩, fun _ => none),
          [Event.writeFile csiConfigLocation "[Workspace]".toList,
            Event.setenv EnvVSphereCSIConfig csiConfigLocation]) := rfl
  have h := (missing_secret_key emptySecretWorld NewVSphereCSIDebugger _ _ _ hread).1 rfl
  have hplain : ∀ c ∈ "vcenter.example.com".toList, plainRune emptySecretWorld.printTable c :=
    fun c hc => plainRune_ascii _ c
      ((show ∀ c ∈ "vcenter.example.com".toList, 0x20 ≤ c.toNat by decide) c hc)
      ((show ∀ c ∈ "vcenter.example.com".toList, c.toNat < 0x7F by decide) c hc)
      ((show ∀ c ∈ "vcenter.example.com".toList, c.toNat ≠ 0x22 by decide) c hc)
      ((show ∀ c ∈ "vcenter.example.com".toList, c.toNat ≠ 0x5C by decide) c hc)
  ⟨hread, h.1, h.2.2.1 hplain, h.2.2.2, by rw [h.2.2.2]; rfl⟩

set_option maxRecDepth 100000 in
/-- C7 as stated fails: for the host `vc"1` and a secret without the key
`vc"1.username`, the message of the error is
`error parsing secret "vmware-vsphere-cloud-credentials": key "vc\"1.username" not found`,
which does not contain the key `vc"1.username`. -/
theorem missing_secret_key_quoted :
    quotedHostWorld.readConfig "[Workspace]".toList = .ok ⟨[], "vc\"1".toList, "DC0".toList⟩
    ∧ (∃ secret, quotedHostWorld.getSecret csiDriverNamespace cloudCredSecretName = .ok secret
        ∧ secret "vc\"1.username".toList = none)
    ∧ (loginToVCenter quotedHostWorld NewVSphereCSIDebugger).value = some
        "error parsing secret \"vmware-vsphere-cloud-credentials\": key \"vc\\\"1.username\" not found".toList
    ∧ ¬ ("vc\"1.username".toList <:+:
        "error parsing secret \"vmware-vsphere-cloud-credentials\": key \"vc\\\"1.username\" not found".toList) :=
  ⟨rfl, ⟨fun _ => none, rfl, rfl⟩, by decide, by decide⟩

/-! ## The arguments of the backend calls -/

theorem RegisterDisk_trace (w : World) (i : Nat) (path name : Str) :
    ∀ e ∈ (RegisterDisk w i path name).2,
      e = Event.connectVslm ∨ e = Event.registerDisk path name := by
  intro e he
  unfold RegisterDisk at he
  repeat' split at he
  all_goals simp only [List.mem_cons, List.mem_singleton, List.not_mem_nil, or_false] at he
  all_goals first
    | exact Or.inl he
    | exact he

theorem registrationStep_trace (w : World) (env : LoopEnv) (i : Nat) (datacenter : Str) :
    ∀ e ∈ (registrationStep w env i datacenter).2,
      e = Event.connectVslm ∨ e = Event.registerDisk
        (backingDiskURLPath env.host env.vmdkPath datacenter env.datastoreName)
        env.volumePath := by
  intro e he
  have hrd := RegisterDisk_trace w i
    (backingDiskURLPath env.host env.vmdkPath datacenter env.datastoreName) env.volumePath e
  unfold registrationStep at he
  simp only at he
  split at he
  · simp at he
  · split at he
    · split at he
      · rename_i heq
        rw [heq] at hrd
        exact hrd he
      · rename_i heq
        rw [heq] at hrd
        exact hrd he
    · simp at he

/-- The events of the loop: each `RegisterDisk` is called with the volume path
as name and the URL of one of the candidates, each `CreateVolume` with a spec
that has the name of the spec the loop was entered with. -/
theorem datacenterLoop_events (w : World) (env : LoopEnv) :
    ∀ (dcs : List Str) (i : Nat) (spec : CreateSpec) (vi : Option VolumeInfo),
      ∀ e ∈ (datacenterLoop w env i dcs spec vi).trace,
        e = Event.connectVslm
        ∨ (∃ dc ∈ dcs, e = Event.registerDisk
            (backingDiskURLPath env.host env.vmdkPath dc env.datastoreName) env.volumePath)
        ∨ ∃ spec2, e = Event.createVolume spec2 ∧ spec2.name = spec.name := by
  intro dcs
  induction dcs with
  | nil =>
    intro i spec vi e he
    simp [datacenterLoop] at he
  | cons dc rest ih =>
    intro i spec vi e
    have hstep := registrationStep_trace w env i dc
    rw [datacenterLoop_cons]
    generalize registrationStep w env i dc = rs at hstep
    rcases rs with ⟨r, tr⟩
    simp only at hstep
    have hreg : ∀ e ∈ tr, e = Event.connectVslm
        ∨ (∃ dc2 ∈ dc :: rest, e = Event.registerDisk
            (backingDiskURLPath env.host env.vmdkPath dc2 env.datastoreName) env.volumePath)
        ∨ ∃ spec2, e = Event.createVolume spec2 ∧ spec2.name = spec.name := by
      intro e he
      rcases hstep e he with h | h
      · exact Or.inl h
      · exact Or.inr (Or.inl ⟨dc, List.mem_cons_self _ _, h⟩)
    cases r with
    | error err => exact hreg e
    | ok det =>
      simp only
      split
      · intro he
        simp only [List.mem_append, List.mem_cons] at he
        rcases he with he | he | he
        · exact hreg e he
        · exact Or.inr (Or.inr ⟨_, he, rfl⟩)
        · rcases ih _ _ _ e he with h | ⟨dc2, hdc2, h⟩ | ⟨spec2, h, hname⟩
          · exact Or.inl h
          · exact Or.inr (Or.inl ⟨dc2, List.mem_cons_of_mem _ hdc2, h⟩)
          · exact Or.inr (Or.inr ⟨spec2, h, hname⟩)
      · intro he
        simp only [List.mem_append, List.mem_singleton] at he
        rcases he with he | he
        · exact hreg e he
        · exact Or.inr (Or.inr ⟨_, he, rfl⟩)

theorem afterLoop_trace (inp : LoopInput) (loop : LoopResult) :
    (afterLoop inp loop).trace = inp.trace ++ loop.trace := by
  unfold afterLoop
  repeat' split
  all_goals rfl

theorem connectAndList_inl {w : World} {csi : VsphereCSIDebugger} {tr : List Event}
    {config : VSphereConfig} {uuid volumePath : Str} {parsed : ParsedPath} {out : Outcome}
    (h : connectAndList w csi tr config uuid volumePath parsed = .inl out) :
    ∀ e ∈ out.trace, e ∈ tr ∨ e = Event.connectVCenter ∨ e = Event.getManager
        ∨ e = Event.getDatacenters := by
  have hconn := GetVirtualCenter_trace w csi
  have hdc := datacenterPaths_trace w config.datacenter
  unfold connectAndList at h
  simp only at h
  split at h
  · simp only [Sum.inl.injEq] at h
    subst h
    intro e he
    rcases List.mem_append.1 he with he | he
    · exact Or.inl he
    · exact Or.inr (Or.inl (hconn e he))
  · split at h
    · simp only [Sum.inl.injEq] at h
      subst h
      intro e he
      simp only [List.mem_append, List.mem_singleton] at he
      rcases he with (he | he) | he
      · exact Or.inl he
      · exact Or.inr (Or.inl (hconn e he))
      · exact Or.inr (Or.inr (Or.inl he))
    · split at h
      · rename_i heq
        rw [heq] at hdc
        simp only [Sum.inl.injEq] at h
        subst h
        intro e he
        simp only [List.mem_append, List.mem_singleton] at he
        rcases he with ((he | he) | he) | he
        · exact Or.inl he
        · exact Or.inr (Or.inl (hconn e he))
        · exact Or.inr (Or.inr (Or.inl he))
        · exact Or.inr (Or.inr (Or.inr (hdc e he)))
      · exact Sum.noConfusion h

/-- The events of a run that returns before the loop. -/
theorem beforeLoop_inl_trace {w : World} {csi : VsphereCSIDebugger} {pvName : Str}
    {out : Outcome} (h : beforeLoop w csi pvName = .inl out) :
    ∀ e ∈ out.trace, e.isBackend = false ∨ e = Event.connectVCenter ∨ e = Event.getManager
        ∨ e = Event.getDatacenters := by
  have hlocal := loginToVCenter_local w csi
  unfold beforeLoop at h
  simp only at h
  split at h
  · simp only [Sum.inl.injEq] at h
    subst h
    exact fun e he => Or.inl (hlocal e he)
  · split at h
    · simp only [Sum.inl.injEq] at h
      subst h
      exact fun e he => Or.inl (hlocal e he)
    · split at h
      · simp only [Sum.inl.injEq] at h
        subst h
        exact fun e he => Or.inl (hlocal e he)
      · split at h
        · simp only [Sum.inl.injEq] at h
          subst h
          exact fun e he => Or.inl (hlocal e he)
        · split at h
          · simp only [Sum.inl.injEq] at h
            subst h
            exact fun e he => Or.inl (hlocal e he)
          · intro e he
            rcases connectAndList_inl h e he with h1 | h1
            · exact Or.inl (hlocal e h1)
            · exact Or.inr h1

/-- C8, as the code has it: every call of the backend disk registration in a
run of `RegisterCNSDisk` passes the volume path of the persistent volume as
name, not the UUID, together with the URL
`https://<host>/folder/<disk path>?dcPath=<escaped datacenter>&dsName=<escaped datastore name>`
of one of the candidate datacenters; the UUID is the name of the create spec
of every volume creation call. -/
theorem registerDisk_arguments (w : World) (csi : VsphereCSIDebugger) (pvName path name : Str)
    (h : Event.registerDisk path name ∈ (RegisterCNSDisk w csi pvName).trace) :
    ∃ (config : VSphereConfig) (uuid volumePath : Str) (parsed : ParsedPath)
      (candidates : List Str) (datacenter : Str),
      (loginToVCenter w csi).csi.config = some config
      ∧ w.newUUID = .ok uuid
      ∧ getVolumePath w pvName = .ok volumePath
      ∧ parseVolumePath volumePath = some parsed
      ∧ (datacenterPaths w config.datacenter).1 = .ok candidates
      ∧ datacenter ∈ candidates
      ∧ name = volumePath
      ∧ path = "https://".toList ++ config.vCenterIP ++ "/folder/".toList ++ parsed.vmdkPath
          ++ "?dcPath=".toList ++ PathEscape datacenter ++ "&dsName=".toList
          ++ PathEscape parsed.datastoreName
      ∧ ∀ spec, Event.createVolume spec ∈ (RegisterCNSDisk w csi pvName).trace →
          spec.name = uuid := by
  cases hb : beforeLoop w csi pvName with
  | inl out =>
    exfalso
    have hR : RegisterCNSDisk w csi pvName = out := by simp only [RegisterCNSDisk, hb]
    rw [hR] at h
    rcases beforeLoop_inl_trace hb _ h with h1 | h1 | h1 | h1
    · simp [Event.isBackend] at h1
    · exact Event.noConfusion h1
    · exact Event.noConfusion h1
    · exact Event.noConfusion h1
  | inr inp =>
    obtain ⟨config, uuid, volumePath, parsed, -, hconfig, huuid, hvp, hparsed, ⟨tr2, hd⟩, henv,
      hspec, hnoreg, hnocreate⟩ := beforeLoop_inr hb
    rw [RegisterCNSDisk_of_inr hb, afterLoop_trace] at h ⊢
    have hev := datacenterLoop_events w inp.env inp.datacenterPaths 0 inp.createSpec none
    rcases List.mem_append.1 h with h | h
    · exact absurd h (hnoreg path name)
    · rcases hev _ h with h1 | ⟨dc, hdc, h1⟩ | ⟨spec2, h1, -⟩
      · exact Event.noConfusion h1
      · simp only [Event.registerDisk.injEq] at h1
        refine ⟨config, uuid, volumePath, parsed, inp.datacenterPaths, dc, hconfig, huuid, hvp,
          hparsed, by rw [hd], hdc, ?_, ?_, ?_⟩
        · rw [h1.2, henv]
        · rw [h1.1, henv]; rfl
        · intro spec hs
          rcases List.mem_append.1 hs with hs | hs
          · exact absurd hs (hnocreate spec)
          · rcases hev _ hs with h2 | ⟨_, _, h2⟩ | ⟨spec2, h2, hname⟩
            · exact Event.noConfusion h2
            · exact Event.noConfusion h2
            · simp only [Event.createVolume.injEq] at h2
              rw [h2, hname, hspec]; rfl
      · exact Event.noConfusion h1

theorem registerDisk_arguments_witness :
    Event.registerDisk
        "https://vcenter.example.com/folder/vols/pv-1.vmdk?dcPath=DC1&dsName=ds1".toList
        "[ds1] vols/pv-1.vmdk".toList
      ∈ (RegisterCNSDisk sampleWorld NewVSphereCSIDebugger "pv-1".toList).trace
    ∧ ∃ (config : VSphereConfig) (uuid volumePath : Str) (parsed : ParsedPath)
      (candidates : List Str) (datacenter : Str),
      (loginToVCenter sampleWorld NewVSphereCSIDebugger).csi.config = some config
      ∧ sampleWorld.newUUID = .ok uuid
      ∧ getVolumePath sampleWorld "pv-1".toList = .ok volumePath
      ∧ parseVolumePath volumePath = some parsed
      ∧ (datacenterPaths sampleWorld config.datacenter).1 = .ok candidates
      ∧ datacenter ∈ candidates
      ∧ "[ds1] vols/pv-1.vmdk".toList = volumePath
      ∧ "https://vcenter.example.com/folder/vols/pv-1.vmdk?dcPath=DC1&dsName=ds1".toList
          = "https://".toList ++ config.vCenterIP ++ "/folder/".toList ++ parsed.vmdkPath
            ++ "?dcPath=".toList ++ PathEscape datacenter ++ "&dsName=".toList
            ++ PathEscape parsed.datastoreName
      ∧ ∀ spec, Event.createVolume spec
            ∈ (RegisterCNSDisk sampleWorld NewVSphereCSIDebugger "pv-1".toList).trace →
          spec.name = uuid :=
  have h : Event.registerDisk
        "https://vcenter.example.com/folder/vols/pv-1.vmdk?dcPath=DC1&dsName=ds1".toList
        "[ds1] vols/pv-1.vmdk".toList
      ∈ (RegisterCNSDisk sampleWorld NewVSphereCSIDebugger "pv-1".toList).trace := by decide
  ⟨h, registerDisk_arguments sampleWorld NewVSphereCSIDebugger "pv-1".toList _ _ h⟩

/-- C8 as stated fails: in the run on `sampleWorld` the UUID is
`6ba7b810-9dad-11d1-80b4-00c04fd430c8`, and the backend disk registration is
called with the name `[ds1] vols/pv-1.vmdk`, the volume path; no call of it
has the UUID as name.  The UUID is the name of the create spec. -/
theorem registerDisk_name_is_not_uuid :
    sampleWorld.newUUID = .ok "6ba7b810-9dad-11d1-80b4-00c04fd430c8".toList
    ∧ Event.registerDisk
        "https://vcenter.example.com/folder/vols/pv-1.vmdk?dcPath=DC0&dsName=ds1".toList
        "[ds1] vols/pv-1.vmdk".toList
      ∈ (RegisterCNSDisk sampleWorld NewVSphereCSIDebugger "pv-1".toList).trace
    ∧ (RegisterCNSDisk sampleWorld NewVSphereCSIDebugger "pv-1".toList).trace.all
        (fun e => match e with
          | .registerDisk _ name => name != "6ba7b810-9dad-11d1-80b4-00c04fd430c8".toList
          | .createVolume spec => spec.name == "6ba7b810-9dad-11d1-80b4-00c04fd430c8".toList
          | _ => true) = true :=
  ⟨rfl, by decide, by decide⟩

/-! ## The command -/

theorem main_empty_pv (inv : Invocation) (h : inv.pv = []) :
    main inv = .fatal "Specify pv Name to migrate".toList := by
  simp [main, h]

/-- With a volume name, the pointer `kubeconfig` is dereferenced while nil
whenever `KUBECONFIG` is unset or empty or does not name an existing file. -/
theorem main_without_kubeconfig (inv : Invocation) (hpv : inv.pv ≠ [])
    (h : inv.kubeconfigEnv = none ∨ inv.kubeconfigEnv = some []
      ∨ fileExists inv.stat (inv.kubeconfigEnv.getD []) = false) :
    main inv = .nilDereference := by
  unfold main
  rcases h with h | h | h
  · simp [h, hpv]
  · simp [h, hpv]
  · simp [h, hpv]

/-- With a volume name and `KUBECONFIG` naming an existing file, `main` exits
through `klog.Fatalf` when the configuration cannot be built, and otherwise
runs the registration and returns. -/
theorem main_with_kubeconfig (inv : Invocation) (path : Str) (hpv : inv.pv ≠ [])
    (henv : inv.kubeconfigEnv = some path) (hpath : path ≠ [])
    (hfile : fileExists inv.stat path = true) :
    (∃ e, inv.buildConfig path = some e
        ∧ main inv = .fatal ("error building kubeconfig: ".toList ++ e))
    ∨ (inv.buildConfig path = none ∧ ∃ printed,
        main inv = .returned printed (RegisterCNSDisk inv.cluster NewVSphereCSIDebugger inv.pv))
    := by
  unfold main
  cases hb : inv.buildConfig path with
  | some e => left; exact ⟨e, rfl, by simp [henv, hpv, hpath, hfile, hb]⟩
  | none =>
    right
    refine ⟨rfl, ?_⟩
    cases herr : (RegisterCNSDisk inv.cluster NewVSphereCSIDebugger inv.pv).err with
    | some e =>
      exact ⟨["KubeConfig is: ".toList ++ path ++ "\n".toList,
        "error registering disk: ".toList ++ e], by simp [henv, hpv, hpath, hfile, hb, herr]⟩
    | none =>
      exact ⟨["KubeConfig is: ".toList ++ path ++ "\n".toList],
        by simp [henv, hpv, hpath, hfile, hb, herr]⟩

/-- C9, the failing input: with `-pv pv-1` and `KUBECONFIG` not set, `main`
neither exits through `klog.Fatalf` nor runs the registration: it dereferences
the nil pointer `kubeconfig` at line 41. -/
theorem main_nil_dereference : main noKubeconfigInvocation = .nilDereference := by
  decide

end CnsRegistration
